import Mathlib

/-! Verification of `image/xcb_image.c`.

A shallow embedding of the image descriptor, the format validator, the
annotation step, the single-pixel accessors and the conversion engine of
`xcb_image.c`, followed by theorems about them.

Conventions of the embedding.

* C unsigned integers are natural numbers; every place where the C code
  computes in `uint32_t` and the value can exceed 32 bits carries an explicit
  `u32` (reduction modulo `2 ^ 32`), every store through a `uint8_t *` an
  explicit reduction modulo `256`.
* The bytes reachable through `image->data` are a function from byte offsets
  (relative to `image->data`) to byte values; `load` and `store` are the
  accesses through a `uint8_t *`.  Pointer arithmetic on `uint8_t *` is
  addition of offsets and does not wrap.
* `assert` failures make the function return `none`.
* Loops are recursive functions whose first numeric argument is the number of
  iterations that remain.
-/

namespace XcbImage

/-! ## Types of `xcb_image.h` -/

/-- The image formats of the X protocol, `xcb_image_format_t`. -/
inductive xcb_image_format_t where
  | XY_BITMAP
  | XY_PIXMAP
  | Z_PIXMAP
  deriving DecidableEq, Repr

/-- The byte and bit orders of the X protocol, `xcb_image_order_t`. -/
inductive xcb_image_order_t where
  | LSB_FIRST
  | MSB_FIRST
  deriving DecidableEq, Repr

/-- The image descriptor `struct xcb_image_t`; `data` holds the bytes that the
C field `data` points to, indexed by byte offset. -/
structure xcb_image_t where
  width : Nat
  height : Nat
  format : xcb_image_format_t
  scanline_pad : Nat
  depth : Nat
  bpp : Nat
  unit : Nat
  plane_mask : Nat
  byte_order : xcb_image_order_t
  bit_order : xcb_image_order_t
  stride : Nat
  size : Nat
  data : Nat → Nat

/-! ## Machine arithmetic and memory -/

/-- Truncation of a value to `uint32_t`. -/
def u32 (n : Nat) : Nat := n % 4294967296

/-- The 32-bit complement `~m` of a value `m` below `2 ^ 32`. -/
def not32 (m : Nat) : Nat := 4294967295 ^^^ m

/-- The assignment `p[a] = v` through a `uint8_t *`: the value is truncated to
eight bits. -/
def store (data : Nat → Nat) (a v : Nat) : Nat → Nat :=
  fun i => if i = a then v % 256 else data i

/-- The read `p[a]` through a `uint8_t *`: a value of eight bits. -/
def load (data : Nat → Nat) (a : Nat) : Nat := data a % 256

/-- The call `memcpy(dst, src, n)` on two disjoint buffers. -/
def memcpy (dst src : Nat → Nat) (n : Nat) : Nat → Nat :=
  fun i => if i < n then src i else dst i

/-! ## Helpers of `xcb_bitops.h` -/

/-- Modelled from the spec: `xcb_mask` of `xcb_bitops.h`, which is not among
the sources; the spec gives the plane mask as `(1 << depth) - 1`, the mask of
the `n` low bits. -/
def xcb_mask (n : Nat) : Nat := 2 ^ n - 1

/-- Modelled from the spec: `xcb_roundup` of `xcb_bitops.h`, which is not among
the sources; `roundUp(n, pad)` is the least multiple of `pad` that is at least
`n`. -/
def xcb_roundup (base pad : Nat) : Nat := (base + pad - 1) / pad * pad

/-- Modelled from the spec: `xcb_bit_reverse` of `xcb_bitops.h`, which is not
among the sources; the value whose `n` low bits are the `n` low bits of `x` in
reverse order. -/
def xcb_bit_reverse (x : Nat) : Nat → Nat
  | 0 => 0
  | n + 1 => (x % 2) * 2 ^ n + xcb_bit_reverse (x / 2) n

/-! ## Format validation and annotation -/

/-- The function `effective_format`. -/
def effective_format (format : xcb_image_format_t) (bpp : Nat) : xcb_image_format_t :=
  if format = xcb_image_format_t.Z_PIXMAP ∧ bpp ≠ 1 then format
  else xcb_image_format_t.XY_PIXMAP

/-- The function `format_valid`; the C result 1 is `true` and 0 is `false`. -/
def format_valid (depth bpp unit : Nat) (format : xcb_image_format_t) (xpad : Nat) : Bool :=
  let ef := effective_format format bpp
  if depth > bpp ∨ bpp > unit then false
  else
    match ef with
    | xcb_image_format_t.XY_PIXMAP =>
      if ¬ (unit = 8 ∨ unit = 16 ∨ unit = 32) then false
      else if xpad < bpp then false
      else if ¬ (xpad = 8 ∨ xpad = 16 ∨ xpad = 32) then false
      else true
    | xcb_image_format_t.Z_PIXMAP =>
      if bpp = 4 then
        if unit ≠ 8 then false else true
      else if bpp = 8 ∨ bpp = 16 ∨ bpp = 24 ∨ bpp = 32 then
        if unit ≠ bpp then false else true
      else false
    | xcb_image_format_t.XY_BITMAP => false

/-- The function `image_format_valid`. -/
def image_format_valid (image : xcb_image_t) : Bool :=
  format_valid image.depth image.bpp image.unit image.format image.scanline_pad

/-- The function `xcb_image_annotate`.  The `default` branch of the C switch
(`assert(0)`) cannot be taken, since `effective_format` never yields
`XY_BITMAP`; the embedding leaves the image as it is there. -/
def xcb_image_annotate (image : xcb_image_t) : xcb_image_t :=
  match effective_format image.format image.bpp with
  | xcb_image_format_t.XY_PIXMAP =>
    let stride := u32 (xcb_roundup image.width image.scanline_pad) >>> 3
    { image with
      plane_mask := xcb_mask image.depth
      stride := stride
      size := u32 (image.height * stride * image.depth) }
  | xcb_image_format_t.Z_PIXMAP =>
    let stride := u32 (xcb_roundup (u32 (image.width * image.bpp)) image.scanline_pad) >>> 3
    { image with
      plane_mask := 0
      stride := stride
      size := u32 (image.height * stride) }
  | xcb_image_format_t.XY_BITMAP => image

/-! ## Single-pixel access -/

/-- The value of the C expression `image->byte_order == XCB_IMAGE_ORDER_MSB_FIRST`. -/
def is_msb (o : xcb_image_order_t) : Nat :=
  if o = xcb_image_order_t.MSB_FIRST then 1 else 0

/-- The plane loop `for (p = 0; p < image->bpp; p++)` of `xcb_image_put_pixel`.
The first argument counts the remaining iterations; `plane` is the offset of
the current plane row, `ub` the value of `unit | byte`. -/
def put_pixel_planes (stride height ub bit : Nat) :
    Nat → Nat → Nat → Nat → (Nat → Nat) → (Nat → Nat)
  | 0, _, _, _, data => data
  | n + 1, plane, pixel, plane_mask, data =>
    let data1 :=
      if plane_mask &&& 1 ≠ 0 then
        let bp := plane + ub
        let m := (1 <<< bit) % 256
        let p := ((pixel &&& 1) <<< bit) % 256
        store data bp ((load data bp &&& not32 m) ||| p)
      else data
    put_pixel_planes stride height ub bit n (plane + u32 (stride * height))
      (pixel >>> 1) (plane_mask >>> 1) data1

/-- The function `xcb_image_put_pixel`; the result is the image after the
call, `none` when an `assert(0)` is reached. -/
def xcb_image_put_pixel (image : xcb_image_t) (x y pixel : Nat) : Option xcb_image_t :=
  if x > image.width ∨ y > image.height then some image
  else
    let row := u32 (y * image.stride)
    match image.format with
    | xcb_image_format_t.Z_PIXMAP =>
      if image.bpp = 4 then
        let pixel0 := pixel &&& 15
        let shifted := (x &&& 1) = is_msb image.byte_order
        let pixel1 := if shifted then u32 (pixel0 <<< 4) else pixel0
        let mask := if shifted then 15 <<< 4 else 15
        let a := row + (x >>> 1)
        some { image with data := store image.data a ((load image.data a &&& not32 mask) ||| pixel1) }
      else if image.bpp = 8 then
        some { image with data := store image.data (row + x) pixel }
      else if image.bpp = 16 then
        let i0 := u32 (x <<< 1)
        let i1 := u32 (u32 (x <<< 1) + 1)
        match image.byte_order with
        | xcb_image_order_t.LSB_FIRST =>
          let data1 :=
            store (store image.data (row + i0) pixel) (row + i1) (pixel >>> 8)
          some { image with data := data1 }
        | xcb_image_order_t.MSB_FIRST =>
          let data1 :=
            store (store image.data (row + i0) (pixel >>> 8)) (row + i1) pixel
          some { image with data := data1 }
      else if image.bpp = 24 then
        let i0 := u32 (x * 3)
        let i1 := u32 (u32 (x * 3) + 1)
        let i2 := u32 (u32 (x * 3) + 2)
        match image.byte_order with
        | xcb_image_order_t.LSB_FIRST =>
          let data1 :=
            store (store (store image.data (row + i0) pixel) (row + i1) (pixel >>> 8))
              (row + i2) (pixel >>> 16)
          some { image with data := data1 }
        | xcb_image_order_t.MSB_FIRST =>
          let data1 :=
            store (store (store image.data (row + i0) (pixel >>> 16)) (row + i1) (pixel >>> 8))
              (row + i2) pixel
          some { image with data := data1 }
      else if image.bpp = 32 then
        let i0 := u32 (x <<< 2)
        let i1 := u32 (u32 (x <<< 2) + 1)
        let i2 := u32 (u32 (x <<< 2) + 2)
        let i3 := u32 (u32 (x <<< 2) + 3)
        match image.byte_order with
        | xcb_image_order_t.LSB_FIRST =>
          let data1 :=
            store (store (store (store image.data (row + i0) pixel) (row + i1) (pixel >>> 8))
              (row + i2) (pixel >>> 16)) (row + i3) (pixel >>> 24)
          some { image with data := data1 }
        | xcb_image_order_t.MSB_FIRST =>
          let data1 :=
            store (store (store (store image.data (row + i0) (pixel >>> 24)) (row + i1)
              (pixel >>> 16)) (row + i2) (pixel >>> 8)) (row + i3) pixel
          some { image with data := data1 }
      else none
    | _ =>
      let ulog := image.bpp >>> 4
      let unit := (x >>> 3) &&& not32 (xcb_mask ulog)
      let byte0 := (x >>> 3) &&& xcb_mask ulog
      let bit0 := x &&& 7
      let byte :=
        if image.byte_order = xcb_image_order_t.MSB_FIRST then xcb_mask ulog - byte0 else byte0
      let bit := if image.bit_order = xcb_image_order_t.MSB_FIRST then 7 - bit0 else bit0
      let pixel1 :=
        if image.bit_order = xcb_image_order_t.MSB_FIRST then pixel
        else xcb_bit_reverse pixel image.bpp
      let plane_mask :=
        if image.bit_order = xcb_image_order_t.MSB_FIRST then image.plane_mask
        else xcb_bit_reverse image.plane_mask image.bpp
      let data1 :=
        put_pixel_planes image.stride image.height (unit ||| byte) bit image.bpp row pixel1
          plane_mask image.data
      some { image with data := data1 }

/-- The plane loop `for (p = 0; p < image->bpp; p++)` of `xcb_image_get_pixel`.
The first numeric argument counts the remaining iterations; the result is the
value of `pixel` after the loop. -/
def get_pixel_planes (stride height ub bit : Nat) (data : Nat → Nat) :
    Nat → Nat → Nat → Nat → Nat
  | 0, _, _, pixel => pixel
  | n + 1, plane, plane_mask, pixel =>
    let pixel1 := u32 (pixel <<< 1)
    let pixel2 :=
      if plane_mask &&& 1 ≠ 0 then pixel1 ||| ((load data (plane + ub) >>> bit) &&& 1)
      else pixel1
    get_pixel_planes stride height ub bit data n (plane + u32 (stride * height))
      (plane_mask >>> 1) pixel2

/-- The function `xcb_image_get_pixel`; `none` when an assertion fails. -/
def xcb_image_get_pixel (image : xcb_image_t) (x y : Nat) : Option Nat :=
  if ¬ (x < image.width ∧ y < image.height) then none
  else
    let row := u32 (y * image.stride)
    match image.format with
    | xcb_image_format_t.Z_PIXMAP =>
      if image.bpp = 4 then
        if (x &&& 1) = is_msb image.byte_order then some (load image.data (row + (x >>> 1)) >>> 4)
        else some (load image.data (row + (x >>> 1)) &&& 15)
      else if image.bpp = 8 then
        some (load image.data (row + x))
      else if image.bpp = 16 then
        let i0 := u32 (x <<< 1)
        let i1 := u32 (u32 (x <<< 1) + 1)
        match image.byte_order with
        | xcb_image_order_t.LSB_FIRST =>
          some (load image.data (row + i0) ||| (load image.data (row + i1) <<< 8))
        | xcb_image_order_t.MSB_FIRST =>
          some ((load image.data (row + i0) <<< 8) ||| load image.data (row + i1))
      else if image.bpp = 24 then
        let i0 := u32 (x * 3)
        let i1 := u32 (u32 (x * 3) + 1)
        let i2 := u32 (u32 (x * 3) + 2)
        match image.byte_order with
        | xcb_image_order_t.LSB_FIRST =>
          some (load image.data (row + i0) ||| (load image.data (row + i1) <<< 8)
            ||| (load image.data (row + i2) <<< 16))
        | xcb_image_order_t.MSB_FIRST =>
          some ((load image.data (row + i0) <<< 16) ||| (load image.data (row + i1) <<< 8)
            ||| load image.data (row + i2))
      else if image.bpp = 32 then
        let i0 := u32 (x <<< 2)
        let i1 := u32 (u32 (x <<< 2) + 1)
        let i2 := u32 (u32 (x <<< 2) + 2)
        let i3 := u32 (u32 (x <<< 2) + 3)
        match image.byte_order with
        | xcb_image_order_t.LSB_FIRST =>
          some (load image.data (row + i0) ||| (load image.data (row + i1) <<< 8)
            ||| (load image.data (row + i2) <<< 16) ||| (load image.data (row + i3) <<< 24))
        | xcb_image_order_t.MSB_FIRST =>
          some ((load image.data (row + i0) <<< 24) ||| (load image.data (row + i1) <<< 16)
            ||| (load image.data (row + i2) <<< 8) ||| load image.data (row + i3))
      else none
    | _ =>
      let ulog := image.bpp >>> 4
      let unit := (x >>> 3) &&& not32 (xcb_mask ulog)
      let byte0 := (x >>> 3) &&& xcb_mask ulog
      let bit0 := x &&& 7
      let byte :=
        if image.byte_order = xcb_image_order_t.MSB_FIRST then xcb_mask ulog - byte0 else byte0
      let bit := if image.bit_order = xcb_image_order_t.MSB_FIRST then 7 - bit0 else bit0
      let plane_mask :=
        if image.bit_order = xcb_image_order_t.MSB_FIRST then image.plane_mask
        else xcb_bit_reverse image.plane_mask image.bpp
      let pixel :=
        get_pixel_planes image.stride image.height (unit ||| byte) bit image.data image.bpp row
          plane_mask 0
      if image.bit_order = xcb_image_order_t.LSB_FIRST then
        some (xcb_bit_reverse pixel image.bpp)
      else some pixel

/-! ## The conversion engine -/

/-- One iteration and the rest of the loop `for (s = 0; s < src_stride; s++)`
of `swap_image`, for the row that starts at offset `soff` of the source and at
offset `doff` of the destination.  The first numeric argument counts the
remaining iterations.  The `continue` of the C code skips the update of
`minor` and `major`. -/
def swap_image_row (src : Nat → Nat) (soff doff dst_stride : Nat) (byte_order : List Nat)
    (unit_bytes : Nat) (bitswap nibbleswap : Bool) :
    Nat → Nat → Nat → Nat → (Nat → Nat) → (Nat → Nat)
  | 0, _, _, _, dst => dst
  | n + 1, s, minor, major, dst =>
    let d := u32 (major + byte_order.getD minor 0)
    if d > dst_stride then
      swap_image_row src soff doff dst_stride byte_order unit_bytes bitswap nibbleswap
        n (s + 1) minor major dst
    else
      let b0 := load src (soff + s)
      let b1 := if bitswap then xcb_bit_reverse b0 8 % 256 else b0
      let b2 := if nibbleswap then ((b1 <<< 4) ||| (b1 >>> 4)) % 256 else b1
      let dst1 := store dst (doff + d) b2
      if minor + 1 = unit_bytes then
        swap_image_row src soff doff dst_stride byte_order unit_bytes bitswap nibbleswap
          n (s + 1) 0 (u32 (major + unit_bytes)) dst1
      else
        swap_image_row src soff doff dst_stride byte_order unit_bytes bitswap nibbleswap
          n (s + 1) (minor + 1) major dst1

/-- The loop `while (height--)` of `swap_image`; the first numeric argument is
`height`, `soff` and `doff` are the current values of the pointers `src` and
`dst` as offsets from their initial values. -/
def swap_image_rows (src : Nat → Nat) (src_stride dst_stride : Nat) (byte_order : List Nat)
    (unit_bytes : Nat) (bitswap nibbleswap : Bool) :
    Nat → Nat → Nat → (Nat → Nat) → (Nat → Nat)
  | 0, _, _, dst => dst
  | h + 1, soff, doff, dst =>
    swap_image_rows src src_stride dst_stride byte_order unit_bytes bitswap nibbleswap h
      (soff + src_stride) (doff + dst_stride)
      (swap_image_row src soff doff dst_stride byte_order unit_bytes bitswap nibbleswap
        src_stride 0 0 0 dst)

/-- The function `swap_image`; the result is the destination memory after the
call. -/
def swap_image (src : Nat → Nat) (src_stride : Nat) (dst : Nat → Nat) (dst_stride : Nat)
    (byte_order : List Nat) (unit_bytes height : Nat) (bitswap nibbleswap : Bool) : Nat → Nat :=
  swap_image_rows src src_stride dst_stride byte_order unit_bytes bitswap nibbleswap
    height 0 0 dst

/-- The table `forward_order`. -/
def forward_order : List Nat := [0, 1, 2, 3]

/-- The table `reverse_order`. -/
def reverse_order : List Nat := [3, 2, 1, 0]

/-- The table `reverse_word_order`. -/
def reverse_word_order : List Nat := [2, 3, 0, 1]

/-- The function `conversion_byte_order`; the pointer `&reverse_order[4 - nbytes]`
is the table without its first `4 - nbytes` entries. -/
def conversion_byte_order (src dst : xcb_image_t) : List Nat :=
  let nbytes := src.unit >>> 3
  if src.byte_order = dst.byte_order then forward_order
  else if nbytes ≥ 1 ∧ nbytes ≤ 4 then reverse_order.drop (4 - nbytes)
  else forward_order

/-- The table `bbo_reverse`, with `R1 = forward_order`, `R2 = W4 =
reverse_word_order` and `R4 = reverse_order`. -/
def bbo_reverse : List (List (List Nat)) :=
  [[forward_order, reverse_word_order, reverse_order],
   [reverse_word_order, reverse_word_order, reverse_word_order],
   [reverse_order, reverse_word_order, reverse_order]]

/-- The function `bitmap_conversion_byte_order`. -/
def bitmap_conversion_byte_order (src dst : xcb_image_t) : List Nat :=
  let srclog := src.unit >>> 4
  let dstlog := dst.unit >>> 4
  let sbo := if srclog = 0 then xcb_image_order_t.LSB_FIRST else src.byte_order
  let dbo := if dstlog = 0 then xcb_image_order_t.LSB_FIRST else dst.byte_order
  if dbo = sbo then forward_order
  else (bbo_reverse.getD srclog []).getD dstlog []

/-- The inner loop `for (x = 0; x < src->width; x++)` of the general case of
`xcb_image_convert`; the first numeric argument counts the remaining
iterations. -/
def convert_pixels_x (src : xcb_image_t) (y : Nat) :
    Nat → Nat → xcb_image_t → Option xcb_image_t
  | 0, _, dst => some dst
  | n + 1, x, dst =>
    match xcb_image_get_pixel src x y with
    | none => none
    | some pixel =>
      match xcb_image_put_pixel dst x y pixel with
      | none => none
      | some dst1 => convert_pixels_x src y n (x + 1) dst1

/-- The outer loop `for (y = 0; y < src->height; y++)` of the general case of
`xcb_image_convert`; the first numeric argument counts the remaining
iterations. -/
def convert_pixels_y (src : xcb_image_t) : Nat → Nat → xcb_image_t → Option xcb_image_t
  | 0, _, dst => some dst
  | n + 1, y, dst =>
    match convert_pixels_x src y src.width 0 dst with
    | none => none
    | some dst1 => convert_pixels_y src n (y + 1) dst1

/-- The part of `xcb_image_convert` that follows the `switch`, reached when the
formats are not identical, with the values of `format_compatible` and `bitmap`
that the `switch` has set. -/
def convert_after_switch (src dst : xcb_image_t) (format_compatible bitmap : Bool) :
    Option (Bool × xcb_image_t) :=
  if bitmap then
    let byte_order := bitmap_conversion_byte_order src dst
    let bitswap := decide (src.bit_order ≠ dst.bit_order)
    let unit := if dst.unit < src.unit then dst.unit else src.unit
    let data1 :=
      swap_image src.data src.stride dst.data dst.stride byte_order (unit >>> 3) src.height
        bitswap false
    some (true, { dst with data := data1 })
  else if format_compatible ∧ src.bpp = dst.bpp then
    let byte_order := conversion_byte_order src dst
    let bitswap := decide (src.bit_order ≠ dst.bit_order)
    let nibbleswap := decide (src.byte_order ≠ dst.byte_order ∧ src.bpp = 4)
    let data1 :=
      swap_image src.data src.stride dst.data dst.stride byte_order (src.unit >>> 3) src.height
        bitswap nibbleswap
    some (true, { dst with data := data1 })
  else
    match convert_pixels_y src src.height 0 dst with
    | none => none
    | some dst1 => some (true, dst1)

/-- The function `xcb_image_convert`.  The result is `none` when an assertion
fails; otherwise it is a pair of a flag, `true` when the C function returns
`dst` and `false` when it returns the null pointer, and of the image `dst`
after the call. -/
def xcb_image_convert (src dst : xcb_image_t) : Option (Bool × xcb_image_t) :=
  if image_format_valid src = false then none
  else if image_format_valid dst = false then none
  else if src.depth ≠ dst.depth ∨ src.width ≠ dst.width ∨ src.height ≠ dst.height then
    some (false, dst)
  else
    match effective_format src.format src.bpp with
    | xcb_image_format_t.XY_PIXMAP =>
      let bitmap := decide (src.depth = 1)
      let format_compatible := decide (src.format = dst.format) || bitmap
      if format_compatible = true ∧ src.bpp = dst.bpp ∧ src.unit = dst.unit ∧
          src.scanline_pad = dst.scanline_pad ∧ src.byte_order = dst.byte_order ∧
          src.bit_order = dst.bit_order then
        some (true, { dst with data := memcpy dst.data src.data src.size })
      else convert_after_switch src dst format_compatible bitmap
    | xcb_image_format_t.Z_PIXMAP =>
      let format_compatible := decide (src.format = dst.format)
      if format_compatible = true ∧ src.bpp = dst.bpp ∧ src.byte_order = dst.byte_order then
        some (true, { dst with data := memcpy dst.data src.data src.size })
      else convert_after_switch src dst format_compatible false
    | xcb_image_format_t.XY_BITMAP => none

/-! ## Vocabulary of the statements -/

/-- The two pixel-layout families of the specification: the family of an image
is its effective format, `XY_PIXMAP` for Planar and `Z_PIXMAP` for Packed. -/
def family (image : xcb_image_t) : xcb_image_format_t :=
  effective_format image.format image.bpp

/-- The derived fields `plane_mask`, `stride` and `size` of the image are the
ones that `xcb_image_annotate` computes. -/
def annotated (image : xcb_image_t) : Prop :=
  image.plane_mask = (xcb_image_annotate image).plane_mask ∧
  image.stride = (xcb_image_annotate image).stride ∧
  image.size = (xcb_image_annotate image).size

/-- A small constructor of descriptors for the examples: the fields that
`xcb_image_create` assigns, with the derived fields set by
`xcb_image_annotate`, and the given buffer contents. -/
def mk_image (width height : Nat) (format : xcb_image_format_t)
    (xpad depth bpp unit : Nat) (byte_order bit_order : xcb_image_order_t)
    (data : Nat → Nat) : xcb_image_t :=
  xcb_image_annotate
    { width := width, height := height, format := format, scanline_pad := xpad,
      depth := depth, bpp := bpp, unit := unit, plane_mask := 0,
      byte_order := byte_order, bit_order := bit_order, stride := 0, size := 0,
      data := data }

/-- The image with its data bytes replaced; every other field is kept. -/
def with_data (image : xcb_image_t) (d : Nat → Nat) : xcb_image_t := { image with data := d }

/-- The offset of the first byte that holds the packed pixel `(x, y)`. -/
def pixel_lo (image : xcb_image_t) (x y : Nat) : Nat :=
  u32 (y * image.stride) + x * image.bpp / 8

/-- The offset after the last byte that holds the packed pixel `(x, y)`. -/
def pixel_hi (image : xcb_image_t) (x y : Nat) : Nat :=
  pixel_lo image x y + (image.bpp + 7) / 8

/-- The rows `y` and `y1` are the same row, or their bytes, at the row offsets
that the pixel accessors compute, do not overlap. -/
def rows_apart (image : xcb_image_t) (y y1 : Nat) : Prop :=
  y1 = y ∨ u32 (y * image.stride) + image.stride ≤ u32 (y1 * image.stride) ∨
    u32 (y1 * image.stride) + image.stride ≤ u32 (y * image.stride)

/-- The index of the other byte of the pair of bytes that holds byte `j`. -/
def swap_index (j : Nat) : Nat := if j % 2 = 0 then j + 1 else j - 1

/-! ## Example images -/

/-- The packed 16-bit image of the specification: four pixels `0x1234`,
`0x5678`, `0x9ABC`, `0xDEF0` in one row, least significant byte first. -/
def ex_packed16_src : xcb_image_t :=
  mk_image 4 1 xcb_image_format_t.Z_PIXMAP 16 16 16 16 xcb_image_order_t.LSB_FIRST
    xcb_image_order_t.MSB_FIRST
    (fun i => [0x34, 0x12, 0x78, 0x56, 0xBC, 0x9A, 0xF0, 0xDE].getD i 0)

/-- A packed 16-bit image of four pixels in one row, most significant byte
first. -/
def ex_packed16_dst : xcb_image_t :=
  mk_image 4 1 xcb_image_format_t.Z_PIXMAP 16 16 16 16 xcb_image_order_t.MSB_FIRST
    xcb_image_order_t.MSB_FIRST (fun _ => 0)

/-- A packed 16-bit image of 65535 by 32769 pixels with scanline pad 16, hence
stride 131070; its only non-zero byte is the low byte of the pixel
`(0, 32768)`, at offset `32768 * 131070`. -/
def ex_huge16_src : xcb_image_t :=
  mk_image 65535 32769 xcb_image_format_t.Z_PIXMAP 16 16 16 16 xcb_image_order_t.LSB_FIRST
    xcb_image_order_t.MSB_FIRST (fun i => if i = 4294901760 then 1 else 0)

/-- A packed 16-bit image of 65535 by 32769 pixels with scanline pad 32, hence
stride 131072, so that `32768 * stride` is `2 ^ 32`. -/
def ex_huge16_dst : xcb_image_t :=
  mk_image 65535 32769 xcb_image_format_t.Z_PIXMAP 32 16 16 16 xcb_image_order_t.MSB_FIRST
    xcb_image_order_t.MSB_FIRST (fun _ => 0)

/-- A packed image of two by two pixels of 24 bits; the byte at offset `i`
holds `i mod 256`. -/
def ex_packed24_src : xcb_image_t :=
  mk_image 2 2 xcb_image_format_t.Z_PIXMAP 32 24 24 24 xcb_image_order_t.LSB_FIRST
    xcb_image_order_t.MSB_FIRST (fun i => i)

/-- A packed image of two by two pixels of depth 24 in 32 bits. -/
def ex_packed32_dst : xcb_image_t :=
  mk_image 2 2 xcb_image_format_t.Z_PIXMAP 32 24 32 32 xcb_image_order_t.MSB_FIRST
    xcb_image_order_t.MSB_FIRST (fun _ => 0)

/-- A packed image of 65535 by 16386 pixels of 24 bits with stride 196605; its
only non-zero byte is the low byte of the pixel `(0, 16385)`, at offset
`16385 * 196605`. -/
def ex_huge24_src : xcb_image_t :=
  mk_image 65535 16386 xcb_image_format_t.Z_PIXMAP 8 24 24 24 xcb_image_order_t.LSB_FIRST
    xcb_image_order_t.MSB_FIRST (fun i => if i = 3221372925 then 1 else 0)

/-- A packed image of 65535 by 16386 pixels of depth 24 in 32 bits with stride
262140, so that `16385 * stride` exceeds `2 ^ 32` by `4 * 49151`. -/
def ex_huge32_dst : xcb_image_t :=
  mk_image 65535 16386 xcb_image_format_t.Z_PIXMAP 32 24 32 32 xcb_image_order_t.LSB_FIRST
    xcb_image_order_t.MSB_FIRST (fun _ => 0)

/-- A packed image of eight pixels of eight bits in one row. -/
def ex_packed8 : xcb_image_t :=
  mk_image 8 1 xcb_image_format_t.Z_PIXMAP 8 8 8 8 xcb_image_order_t.LSB_FIRST
    xcb_image_order_t.MSB_FIRST (fun _ => 0)

/-- A planar image of one pixel in two planes, every byte zero. -/
def ex_planar2 : xcb_image_t :=
  mk_image 1 1 xcb_image_format_t.XY_PIXMAP 8 2 2 8 xcb_image_order_t.MSB_FIRST
    xcb_image_order_t.MSB_FIRST (fun _ => 0)

/-- A planar image of one pixel in two planes, declared `XY_BITMAP`, whose only
set bit is a padding bit of the first plane. -/
def ex_bitmap2_src : xcb_image_t :=
  mk_image 1 1 xcb_image_format_t.XY_BITMAP 8 2 2 8 xcb_image_order_t.MSB_FIRST
    xcb_image_order_t.MSB_FIRST (fun i => if i = 0 then 1 else 0)

/-- A planar image of one pixel in two planes; the bit of the pixel is set in
the first plane, so the pixel reads as 2. -/
def ex_planar2_src : xcb_image_t :=
  mk_image 1 1 xcb_image_format_t.XY_PIXMAP 8 2 2 8 xcb_image_order_t.MSB_FIRST
    xcb_image_order_t.MSB_FIRST (fun i => if i = 0 then 128 else 0)

/-- A packed image of one pixel of depth two in four bits, every byte zero. -/
def ex_packed4_dst : xcb_image_t :=
  mk_image 1 1 xcb_image_format_t.Z_PIXMAP 8 2 4 8 xcb_image_order_t.MSB_FIRST
    xcb_image_order_t.MSB_FIRST (fun _ => 0)

/-- A bitmap of 32 pixels in one 32-bit unit, least significant byte first;
only the pixel at `x = 0` is set. -/
def ex_bitmap32_src : xcb_image_t :=
  mk_image 32 1 xcb_image_format_t.XY_PIXMAP 32 1 1 32 xcb_image_order_t.LSB_FIRST
    xcb_image_order_t.MSB_FIRST (fun i => if i = 0 then 128 else 0)

/-- A bitmap of 32 pixels in one 32-bit unit, most significant byte first. -/
def ex_bitmap32_dst : xcb_image_t :=
  mk_image 32 1 xcb_image_format_t.XY_PIXMAP 32 1 1 32 xcb_image_order_t.MSB_FIRST
    xcb_image_order_t.MSB_FIRST (fun _ => 0)

/-- A packed image of one pixel of eight bits with value 1, both orders least
significant first. -/
def ex_packed8_lsb : xcb_image_t :=
  mk_image 1 1 xcb_image_format_t.Z_PIXMAP 8 8 8 8 xcb_image_order_t.LSB_FIRST
    xcb_image_order_t.LSB_FIRST (fun i => if i = 0 then 1 else 0)

/-- A packed image of one pixel of eight bits, both orders least significant
first, every byte zero. -/
def ex_packed8_lsb_dst : xcb_image_t :=
  mk_image 1 1 xcb_image_format_t.Z_PIXMAP 8 8 8 8 xcb_image_order_t.LSB_FIRST
    xcb_image_order_t.LSB_FIRST (fun _ => 0)

/-- A packed image of one pixel of eight bits, both orders most significant
first. -/
def ex_packed8_msb : xcb_image_t :=
  mk_image 1 1 xcb_image_format_t.Z_PIXMAP 8 8 8 8 xcb_image_order_t.MSB_FIRST
    xcb_image_order_t.MSB_FIRST (fun _ => 0)

/-- A packed image of two pixels of eight bits in one row. -/
def ex_packed8_wide : xcb_image_t :=
  mk_image 2 1 xcb_image_format_t.Z_PIXMAP 8 8 8 8 xcb_image_order_t.MSB_FIRST
    xcb_image_order_t.MSB_FIRST (fun _ => 0)

/-! ## Creation of a descriptor -/

/-- The defaulting of `unit` at the start of `xcb_image_create`: the block
`if (unit == 0) { switch (format) ... }`. -/
def default_unit (format : xcb_image_format_t) (bpp unit : Nat) : Nat :=
  if unit = 0 then
    match format with
    | xcb_image_format_t.XY_BITMAP => 32
    | xcb_image_format_t.XY_PIXMAP => 32
    | xcb_image_format_t.Z_PIXMAP =>
      if bpp = 1 then 32
      else if bpp < 8 then 8
      else bpp
  else unit

/-- The image that `xcb_image_create` returns: the descriptor together with
the values of the pointer fields `base` and `data` of the C structure, as
addresses; the null pointer is 0. -/
structure created_image where
  image : xcb_image_t
  base : Nat
  data : Nat

/-- The function `xcb_image_create`.  The pointers `base` and `data` are
addresses, 0 for the null pointer.  The two calls of `malloc` are parameters:
`malloc_image` tells whether the allocation of the structure succeeds,
`malloc_data n` is the address that `malloc(n)` returns for the pixel data, 0
on failure; `heap p` gives the bytes that the address `p` points to.  The
result is `none` when the function returns the null pointer.  Where the C code
returns the structure without storage (`bytes == ~0`) it leaves the two pointer
fields unset; the embedding shows them as null. -/
def xcb_image_create (malloc_image : Bool) (malloc_data : Nat → Nat) (heap : Nat → Nat → Nat)
    (width height : Nat) (format : xcb_image_format_t) (xpad depth bpp unit : Nat)
    (byte_order bit_order : xcb_image_order_t) (base bytes data : Nat) :
    Option created_image :=
  let unit1 := default_unit format bpp unit
  if format_valid depth bpp unit1 format xpad = false then none
  else if malloc_image = false then none
  else
    let image :=
      mk_image width height format xpad depth bpp unit1 byte_order bit_order (heap data)
    if base = 0 ∧ data = 0 ∧ bytes = 4294967295 then
      some { image := image, base := 0, data := 0 }
    else
      let bytes1 := if base = 0 ∧ data ≠ 0 ∧ bytes = 0 then image.size else bytes
      if data ≠ 0 then
        if bytes1 < image.size then none
        else some { image := image, base := base, data := data }
      else if base ≠ 0 then
        if bytes1 < image.size then none
        else some { image := with_data image (heap base), base := base, data := base }
      else
        let bytes2 := image.size
        let p := malloc_data bytes2
        if p = 0 ∨ bytes2 < image.size then none
        else some { image := with_data image (heap p), base := p, data := p }

/-- The product that the size of an image stands for, as an exact natural
number: `height * stride * depth` for a planar image and `height * stride` for
a packed image, with the stride of the image. -/
def exact_size (image : xcb_image_t) : Nat :=
  match family image with
  | xcb_image_format_t.Z_PIXMAP => image.height * image.stride
  | _ => image.height * image.stride * image.depth

/-! ## Example images for creation, annotation and conversion -/

/-- A packed image of one pixel of eight bits with scanline pad 32, hence a
row of four bytes, every byte zero. -/
def ex_packed8_pad32 : xcb_image_t :=
  mk_image 1 1 xcb_image_format_t.Z_PIXMAP 32 8 8 8 xcb_image_order_t.MSB_FIRST
    xcb_image_order_t.MSB_FIRST (fun _ => 0)

/-- A packed image of one pixel of four bits with scanline pad 4, a pad that
`format_valid` accepts for a packed image. -/
def ex_packed4_pad4 : xcb_image_t :=
  mk_image 1 1 xcb_image_format_t.Z_PIXMAP 4 4 4 8 xcb_image_order_t.MSB_FIRST
    xcb_image_order_t.MSB_FIRST (fun _ => 0)

/-- A packed image of 65535 by 65535 pixels of 32 bits. -/
def ex_huge32_square : xcb_image_t :=
  mk_image 65535 65535 xcb_image_format_t.Z_PIXMAP 32 24 32 32 xcb_image_order_t.LSB_FIRST
    xcb_image_order_t.MSB_FIRST (fun _ => 0)

/-- A bitmap of one pixel, which is set. -/
def ex_bitmap1_src : xcb_image_t :=
  mk_image 1 1 xcb_image_format_t.XY_PIXMAP 8 1 1 8 xcb_image_order_t.MSB_FIRST
    xcb_image_order_t.MSB_FIRST (fun i => if i = 0 then 128 else 0)

/-- A packed image of one pixel of depth one in eight bits, every byte zero. -/
def ex_packed8_depth1 : xcb_image_t :=
  mk_image 1 1 xcb_image_format_t.Z_PIXMAP 8 1 8 8 xcb_image_order_t.MSB_FIRST
    xcb_image_order_t.MSB_FIRST (fun _ => 0)

/-- A packed image of one by two pixels of eight bits with scanline pad 32,
hence stride 4 and size 8; the pixel `(0, 1)`, at offset 4, is 7. -/
def ex_column_pad32 : xcb_image_t :=
  mk_image 1 2 xcb_image_format_t.Z_PIXMAP 32 8 8 8 xcb_image_order_t.MSB_FIRST
    xcb_image_order_t.MSB_FIRST (fun i => if i = 4 then 7 else 0)

/-- A packed image of one by two pixels of eight bits with scanline pad 8,
hence stride 1 and size 2, every byte zero. -/
def ex_column_pad8 : xcb_image_t :=
  mk_image 1 2 xcb_image_format_t.Z_PIXMAP 8 8 8 8 xcb_image_order_t.MSB_FIRST
    xcb_image_order_t.MSB_FIRST (fun _ => 0)

/-- A bitmap of eight pixels in one row with scanline pad 16, hence stride 2;
every byte is 255. -/
def ex_bitmap8_pad16 : xcb_image_t :=
  mk_image 8 1 xcb_image_format_t.XY_PIXMAP 16 1 1 8 xcb_image_order_t.MSB_FIRST
    xcb_image_order_t.MSB_FIRST (fun _ => 255)

/-- A bitmap of eight pixels in one row with scanline pad 8, hence stride 1 and
size 1, every byte zero. -/
def ex_bitmap8_pad8 : xcb_image_t :=
  mk_image 8 1 xcb_image_format_t.XY_PIXMAP 8 1 1 8 xcb_image_order_t.MSB_FIRST
    xcb_image_order_t.MSB_FIRST (fun _ => 0)

/-! ## Vocabulary of the planar accessors -/

/-- A planar image of one pixel of depth one in two bits per pixel, least
significant bit first, hence of stride 1 and size 1; every byte is zero. -/
def ex_planar_depth1 : xcb_image_t :=
  mk_image 1 1 xcb_image_format_t.XY_PIXMAP 8 1 2 8 xcb_image_order_t.MSB_FIRST
    xcb_image_order_t.LSB_FIRST (fun _ => 0)

open xcb_image_format_t xcb_image_order_t

theorem load_lt (data : Nat → Nat) (a : Nat) : load data a < 256 := by
  unfold load; omega

theorem load_store_same (data : Nat → Nat) (a v : Nat) : load (store data a v) a = v % 256 := by
  simp [load, store]

theorem load_store_ne (data : Nat → Nat) (a b v : Nat) (h : b ≠ a) :
    load (store data a v) b = load data b := by
  simp [load, store, h]

theorem lor_shl8 (a b : Nat) (ha : a < 256) : a ||| (b <<< 8) = 256 * b + a := by
  rw [Nat.lor_comm, Nat.shiftLeft_eq, Nat.mul_comm]
  exact (Nat.mul_add_lt_is_or (i := 8) ha b).symm

theorem shl8_lor (a b : Nat) (hb : b < 256) : (a <<< 8) ||| b = 256 * a + b := by
  rw [Nat.shiftLeft_eq, Nat.mul_comm]
  exact (Nat.mul_add_lt_is_or (i := 8) hb a).symm

theorem lor_shl16 (a b : Nat) (ha : a < 65536) : a ||| (b <<< 16) = 65536 * b + a := by
  rw [Nat.lor_comm, Nat.shiftLeft_eq, Nat.mul_comm]
  exact (Nat.mul_add_lt_is_or (i := 16) ha b).symm

theorem shl16_lor (a b : Nat) (hb : b < 65536) : (a <<< 16) ||| b = 65536 * a + b := by
  rw [Nat.shiftLeft_eq, Nat.mul_comm]
  exact (Nat.mul_add_lt_is_or (i := 16) hb a).symm

theorem lor_shl24 (a b : Nat) (ha : a < 16777216) : a ||| (b <<< 24) = 16777216 * b + a := by
  rw [Nat.lor_comm, Nat.shiftLeft_eq, Nat.mul_comm]
  exact (Nat.mul_add_lt_is_or (i := 24) ha b).symm

theorem shl24_lor (a b : Nat) (hb : b < 16777216) : (a <<< 24) ||| b = 16777216 * a + b := by
  rw [Nat.shiftLeft_eq, Nat.mul_comm]
  exact (Nat.mul_add_lt_is_or (i := 24) hb a).symm

set_option maxRecDepth 100000 in
/-- Writing the high nibble of a byte: the high nibble reads back, the low
nibble is kept. -/
theorem nibble_high : ∀ old < 256, ∀ p < 16,
    (((old &&& not32 240) ||| u32 (p <<< 4)) % 256) >>> 4 = p ∧
    (((old &&& not32 240) ||| u32 (p <<< 4)) % 256) &&& 15 = old &&& 15 := by
  decide

set_option maxRecDepth 100000 in
/-- Writing the low nibble of a byte: the low nibble reads back, the high
nibble is kept. -/
theorem nibble_low : ∀ old < 256, ∀ p < 16,
    (((old &&& not32 15) ||| p) % 256) &&& 15 = p ∧
    (((old &&& not32 15) ||| p) % 256) >>> 4 = old >>> 4 := by
  decide

theorem and15 (v : Nat) : v &&& 15 = v % 16 := Nat.and_pow_two_sub_one_eq_mod v 4

theorem addr_ne (r a i j : Nat) (hi : i < 4) (hj : j < 4) (hij : i ≠ j) :
    r + u32 (u32 a + i) ≠ r + u32 (u32 a + j) := by
  unfold u32; omega

theorem addr_ne0 (r a j : Nat) (hj : j < 4) (hij : 0 ≠ j) :
    r + u32 a ≠ r + u32 (u32 a + j) := by
  unfold u32; omega

theorem bytes2 (v : Nat) : 256 * (v >>> 8 % 256) + v % 256 = v % 65536 := by
  rw [Nat.shiftRight_eq_div_pow]; omega

theorem bytes3 (v : Nat) :
    65536 * (v >>> 16 % 256) + (256 * (v >>> 8 % 256) + v % 256) = v % 16777216 := by
  rw [Nat.shiftRight_eq_div_pow, Nat.shiftRight_eq_div_pow]; omega

theorem bytes4 (v : Nat) :
    16777216 * (v >>> 24 % 256) + (65536 * (v >>> 16 % 256) + (256 * (v >>> 8 % 256) + v % 256))
      = v % 4294967296 := by
  rw [Nat.shiftRight_eq_div_pow, Nat.shiftRight_eq_div_pow, Nat.shiftRight_eq_div_pow]; omega

/-- Assembly of two bytes, low byte first. -/
theorem asm2_lsb (a b : Nat) (ha : a < 256) : a ||| (b <<< 8) = 256 * b + a := lor_shl8 a b ha

/-- Assembly of two bytes, high byte first. -/
theorem asm2_msb (a b : Nat) (hb : b < 256) : (a <<< 8) ||| b = 256 * a + b := shl8_lor a b hb

theorem asm3_lsb (a b c : Nat) (ha : a < 256) (hb : b < 256) :
    a ||| (b <<< 8) ||| (c <<< 16) = 65536 * c + (256 * b + a) := by
  rw [lor_shl8 a b ha, lor_shl16 _ c (by omega)]

theorem asm3_msb (a b c : Nat) (hb : b < 256) (hc : c < 256) :
    (a <<< 16) ||| (b <<< 8) ||| c = 65536 * a + (256 * b + c) := by
  rw [Nat.lor_assoc, shl8_lor b c hc, shl16_lor a _ (by omega)]

theorem asm4_lsb (a b c d : Nat) (ha : a < 256) (hb : b < 256) (hc : c < 256) :
    a ||| (b <<< 8) ||| (c <<< 16) ||| (d <<< 24) = 16777216 * d + (65536 * c + (256 * b + a)) := by
  rw [asm3_lsb a b c ha hb, lor_shl24 _ d (by omega)]

theorem asm4_msb (a b c d : Nat) (hb : b < 256) (hc : c < 256) (hd : d < 256) :
    (a <<< 24) ||| (b <<< 16) ||| (c <<< 8) ||| d
      = 16777216 * a + (65536 * b + (256 * c + d)) := by
  rw [Nat.lor_assoc, Nat.lor_assoc, shl8_lor c d hd, shl16_lor b _ (by omega),
    shl24_lor a _ (by omega)]

/-! ## Format validation -/

/-- The two possible results of `effective_format`. -/
theorem effective_format_cases (format : xcb_image_format_t) (bpp : Nat) :
    (effective_format format bpp = Z_PIXMAP ∧ format = Z_PIXMAP ∧ bpp ≠ 1) ∨
    (effective_format format bpp = XY_PIXMAP ∧ ¬ (format = Z_PIXMAP ∧ bpp ≠ 1)) := by
  unfold effective_format
  by_cases h : format = Z_PIXMAP ∧ bpp ≠ 1
  · left; simp [h]
  · right; simp [h]

/-- What `format_valid` has checked when it returns true. -/
theorem format_valid_true (depth bpp unit : Nat) (format : xcb_image_format_t) (xpad : Nat)
    (h : format_valid depth bpp unit format xpad = true) :
    (depth ≤ bpp ∧ bpp ≤ unit) ∧
      (((format ≠ Z_PIXMAP ∨ bpp = 1) ∧ (unit = 8 ∨ unit = 16 ∨ unit = 32) ∧
          (xpad = 8 ∨ xpad = 16 ∨ xpad = 32) ∧ bpp ≤ xpad) ∨
        ((format = Z_PIXMAP ∧ bpp ≠ 1) ∧
          (bpp = 4 ∨ bpp = 8 ∨ bpp = 16 ∨ bpp = 24 ∨ bpp = 32) ∧
          (if bpp = 4 then unit = 8 else unit = bpp))) := by
  revert h
  unfold format_valid effective_format
  by_cases hz : format = Z_PIXMAP ∧ bpp ≠ 1
  · obtain ⟨hz1, hz2⟩ := hz
    subst hz1
    simp only [hz2, ne_eq, not_false_eq_true, and_self, if_true]
    by_cases h4 : bpp = 4
    · subst h4; simp
    · by_cases h8 : bpp = 8 ∨ bpp = 16 ∨ bpp = 24 ∨ bpp = 32
      · simp [h4, h8]
      · simp [h4, h8]
  · simp only [hz, if_false]
    have hz1 : format ≠ Z_PIXMAP ∨ bpp = 1 := by
      by_cases h : format = Z_PIXMAP
      · right; by_contra hb; exact hz ⟨h, hb⟩
      · left; exact h
    simp [hz, hz1]
    omega

/-- C3: `format_valid` returns true exactly when `depth <= bpp <= unit` and
either, in the planar case (format not Z-pixmap, or `bpp = 1`), the unit and the
scanline pad are in {8,16,32} and the pad is at least `bpp`, or, in the packed
case (format Z-pixmap and `bpp != 1`), `bpp` is in {4,8,16,24,32} with
`unit = 8` when `bpp = 4` and `unit = bpp` otherwise. -/
theorem format_valid_iff (depth bpp unit : Nat) (format : xcb_image_format_t) (xpad : Nat) :
    format_valid depth bpp unit format xpad = true ↔
      (depth ≤ bpp ∧ bpp ≤ unit) ∧
      (((format ≠ Z_PIXMAP ∨ bpp = 1) ∧ (unit = 8 ∨ unit = 16 ∨ unit = 32) ∧
          (xpad = 8 ∨ xpad = 16 ∨ xpad = 32) ∧ bpp ≤ xpad) ∨
        ((format = Z_PIXMAP ∧ bpp ≠ 1) ∧
          (bpp = 4 ∨ bpp = 8 ∨ bpp = 16 ∨ bpp = 24 ∨ bpp = 32) ∧
          (if bpp = 4 then unit = 8 else unit = bpp))) := by
  unfold format_valid effective_format
  by_cases hz : format = Z_PIXMAP ∧ bpp ≠ 1
  · obtain ⟨hz1, hz2⟩ := hz
    subst hz1
    simp only [hz2, ne_eq, not_false_eq_true, and_self, if_true]
    by_cases h4 : bpp = 4
    · subst h4; simp
    · by_cases h8 : bpp = 8 ∨ bpp = 16 ∨ bpp = 24 ∨ bpp = 32
      · simp [h4, h8]
      · simp [h4, h8]
  · simp only [hz, if_false]
    have hz1 : format ≠ Z_PIXMAP ∨ bpp = 1 := by
      by_cases h : format = Z_PIXMAP
      · right; by_contra hb; exact hz ⟨h, hb⟩
      · left; exact h
    simp [hz, hz1]
    omega

/-! ## Round trip of the packed accessors -/

/-- A packed pixel that has been written reads back modulo `2 ^ bpp`. -/
theorem put_get_pixel_packed (image : xcb_image_t) (x y v : Nat)
    (hf : image.format = Z_PIXMAP)
    (hb : image.bpp = 4 ∨ image.bpp = 8 ∨ image.bpp = 16 ∨ image.bpp = 24 ∨ image.bpp = 32)
    (hx : x < image.width) (hy : y < image.height) :
    ∃ image1, xcb_image_put_pixel image x y v = some image1 ∧
      xcb_image_get_pixel image1 x y = some (v % 2 ^ image.bpp) := by
  have hx1 : ¬ x > image.width := by omega
  have hy1 : ¬ y > image.height := by omega
  have m256 : ∀ n : Nat, n % 256 < 256 := fun n => Nat.mod_lt _ (by norm_num)
  rcases hb with hb | hb | hb | hb | hb
  · -- four bits per pixel
    by_cases hs : (x &&& 1) = is_msb image.byte_order
    · simp only [xcb_image_put_pixel, hf, hb, hx1, hy1, hs, or_self, if_false, if_true]
      refine ⟨_, rfl, ?_⟩
      have h := (nibble_high _ (load_lt image.data (u32 (y * image.stride) + (x >>> 1)))
        (v % 16) (Nat.mod_lt _ (by norm_num))).1
      simp [xcb_image_get_pixel, hf, hb, hx, hy, hs, load_store_same, and15]
      exact h
    · simp only [xcb_image_put_pixel, hf, hb, hx1, hy1, hs, or_self, if_false, if_true]
      refine ⟨_, rfl, ?_⟩
      have h := (nibble_low _ (load_lt image.data (u32 (y * image.stride) + (x >>> 1)))
        (v % 16) (Nat.mod_lt _ (by norm_num))).1
      simp [-Nat.and_one_is_mod, xcb_image_get_pixel, hf, hb, hx, hy, hs, load_store_same, and15]
      simpa [and15] using h
  · -- eight bits per pixel
    simp only [xcb_image_put_pixel, hf, hb, hx1, hy1, or_self, if_false, if_true]
    refine ⟨_, by simp; rfl, ?_⟩
    simp [xcb_image_get_pixel, hf, hb, hx, hy, load_store_same]
  · -- sixteen bits per pixel
    have n01 := addr_ne0 (u32 (y * image.stride)) (x <<< 1) 1 (by norm_num) (by norm_num)
    cases hbo : image.byte_order
    · simp only [xcb_image_put_pixel, hf, hb, hx1, hy1, hbo, or_self, if_false, if_true]
      refine ⟨_, by simp; rfl, ?_⟩
      simp [xcb_image_get_pixel, hf, hb, hx, hy, hbo, load_store_same, load_store_ne _ _ _ _ n01]
      rw [asm2_lsb _ _ (m256 _)]; exact bytes2 v
    · simp only [xcb_image_put_pixel, hf, hb, hx1, hy1, hbo, or_self, if_false, if_true]
      refine ⟨_, by simp; rfl, ?_⟩
      simp [xcb_image_get_pixel, hf, hb, hx, hy, hbo, load_store_same, load_store_ne _ _ _ _ n01]
      rw [asm2_msb _ _ (m256 _)]; exact bytes2 v
  · -- twenty-four bits per pixel
    have n01 := addr_ne0 (u32 (y * image.stride)) (x * 3) 1 (by norm_num) (by norm_num)
    have n02 := addr_ne0 (u32 (y * image.stride)) (x * 3) 2 (by norm_num) (by norm_num)
    have n12 := addr_ne (u32 (y * image.stride)) (x * 3) 1 2 (by norm_num) (by norm_num)
      (by norm_num)
    cases hbo : image.byte_order
    · simp only [xcb_image_put_pixel, hf, hb, hx1, hy1, hbo, or_self, if_false, if_true]
      refine ⟨_, by simp; rfl, ?_⟩
      simp [xcb_image_get_pixel, hf, hb, hx, hy, hbo, load_store_same, load_store_ne _ _ _ _ n01,
        load_store_ne _ _ _ _ n02, load_store_ne _ _ _ _ n12]
      rw [asm3_lsb _ _ _ (m256 _) (m256 _)]; exact bytes3 v
    · simp only [xcb_image_put_pixel, hf, hb, hx1, hy1, hbo, or_self, if_false, if_true]
      refine ⟨_, by simp; rfl, ?_⟩
      simp [xcb_image_get_pixel, hf, hb, hx, hy, hbo, load_store_same, load_store_ne _ _ _ _ n01,
        load_store_ne _ _ _ _ n02, load_store_ne _ _ _ _ n12]
      rw [asm3_msb _ _ _ (m256 _) (m256 _)]; have := bytes3 v; omega
  · -- thirty-two bits per pixel
    have n01 := addr_ne0 (u32 (y * image.stride)) (x <<< 2) 1 (by norm_num) (by norm_num)
    have n02 := addr_ne0 (u32 (y * image.stride)) (x <<< 2) 2 (by norm_num) (by norm_num)
    have n03 := addr_ne0 (u32 (y * image.stride)) (x <<< 2) 3 (by norm_num) (by norm_num)
    have n12 := addr_ne (u32 (y * image.stride)) (x <<< 2) 1 2 (by norm_num) (by norm_num)
      (by norm_num)
    have n13 := addr_ne (u32 (y * image.stride)) (x <<< 2) 1 3 (by norm_num) (by norm_num)
      (by norm_num)
    have n23 := addr_ne (u32 (y * image.stride)) (x <<< 2) 2 3 (by norm_num) (by norm_num)
      (by norm_num)
    cases hbo : image.byte_order
    · simp only [xcb_image_put_pixel, hf, hb, hx1, hy1, hbo, or_self, if_false, if_true]
      refine ⟨_, by simp; rfl, ?_⟩
      simp [xcb_image_get_pixel, hf, hb, hx, hy, hbo, load_store_same, load_store_ne _ _ _ _ n01,
        load_store_ne _ _ _ _ n02, load_store_ne _ _ _ _ n12, load_store_ne _ _ _ _ n03,
        load_store_ne _ _ _ _ n13, load_store_ne _ _ _ _ n23]
      rw [asm4_lsb _ _ _ _ (m256 _) (m256 _) (m256 _)]; exact bytes4 v
    · simp only [xcb_image_put_pixel, hf, hb, hx1, hy1, hbo, or_self, if_false, if_true]
      refine ⟨_, by simp; rfl, ?_⟩
      simp [xcb_image_get_pixel, hf, hb, hx, hy, hbo, load_store_same, load_store_ne _ _ _ _ n01,
        load_store_ne _ _ _ _ n02, load_store_ne _ _ _ _ n12, load_store_ne _ _ _ _ n03,
        load_store_ne _ _ _ _ n13, load_store_ne _ _ _ _ n23]
      rw [asm4_msb _ _ _ _ (m256 _) (m256 _) (m256 _)]; have := bytes4 v; omega

/-- C1: for a packed (Z-pixmap) image with `bpp` in {4,8,16,24,32}, either byte
order, every in-bounds `(x, y)` and every 32-bit value `v`, the call
`xcb_image_put_pixel(d,x,y,v)` completes and afterwards
`xcb_image_get_pixel(d,x,y)` returns `v mod 2^bpp`. -/
theorem put_then_get_packed (image : xcb_image_t) (x y v : Nat)
    (hf : image.format = Z_PIXMAP)
    (hb : image.bpp = 4 ∨ image.bpp = 8 ∨ image.bpp = 16 ∨ image.bpp = 24 ∨ image.bpp = 32)
    (hx : x < image.width) (hy : y < image.height) (_hv : v < 2 ^ 32) :
    ∃ image1, xcb_image_put_pixel image x y v = some image1 ∧
      xcb_image_get_pixel image1 x y = some (v % 2 ^ image.bpp) :=
  put_get_pixel_packed image x y v hf hb hx hy

/-- The round trip of C1 on the example of the specification: eight pixels of
eight bits, value `0xAB` at `(0, 0)`. -/
theorem put_then_get_packed_witness :
    ex_packed8.size = 8 ∧
    ∃ image1, xcb_image_put_pixel ex_packed8 0 0 171 = some image1 ∧
      xcb_image_get_pixel image1 0 0 = some (171 % 2 ^ ex_packed8.bpp) :=
  ⟨by decide, put_then_get_packed ex_packed8 0 0 171 (by decide) (by decide) (by decide)
    (by decide) (by decide)⟩

/-! ## Round trip of the planar accessors -/

/-- C2, evaluated on the code: on a format-valid planar image with
`depth = bpp = 2` and the plane mask of `xcb_image_annotate`, writing the value
1 at `(0, 0)` and reading the pixel back yields 2, not `1 mod 2^2`: the write
loop puts the least significant bit of the value into the first plane, the read
loop takes the first plane as the most significant bit. -/
theorem planar_put_then_get_reverses :
    image_format_valid ex_planar2 = true ∧ ex_planar2.depth = ex_planar2.bpp ∧
    ex_planar2.plane_mask = xcb_mask ex_planar2.depth ∧
    ∃ image1, xcb_image_put_pixel ex_planar2 0 0 1 = some image1 ∧
      xcb_image_get_pixel image1 0 0 = some 2 :=
  ⟨by decide, by decide, by decide, _, rfl, by decide⟩

/-! ## Conversion: geometry check and identical layouts -/

/-- C6: for format-valid `src` and `dst` whose depth, width or height differ,
`xcb_image_convert(src,dst)` returns the null pointer and `dst`, fields and
data, is unchanged. -/
theorem convert_geometry_mismatch (src dst : xcb_image_t)
    (hs : image_format_valid src = true) (hd : image_format_valid dst = true)
    (h : src.depth ≠ dst.depth ∨ src.width ≠ dst.width ∨ src.height ≠ dst.height) :
    xcb_image_convert src dst = some (false, dst) := by
  unfold xcb_image_convert
  simp [hs, hd, h]

/-- The rejection of C6 on two packed images of different width. -/
theorem convert_geometry_mismatch_witness :
    xcb_image_convert ex_packed8_msb ex_packed8_wide = some (false, ex_packed8_wide) :=
  convert_geometry_mismatch ex_packed8_msb ex_packed8_wide (by decide) (by decide)
    (by decide)

/-- The size that `xcb_image_annotate` computes depends only on the family and
on the geometry fields. -/
theorem annotate_size_eq (a b : xcb_image_t)
    (hf : family a = family b) (hw : a.width = b.width) (hh : a.height = b.height)
    (hd : a.depth = b.depth) (hb : a.bpp = b.bpp) (hp : a.scanline_pad = b.scanline_pad) :
    (xcb_image_annotate a).size = (xcb_image_annotate b).size := by
  unfold family at hf
  unfold xcb_image_annotate
  rw [← hf]
  rcases effective_format_cases a.format a.bpp with ⟨he, _, _⟩ | ⟨he, _⟩ <;>
    rw [he] <;> simp [hw, hh, hd, hb, hp]

/-- C4, as amended: for format-valid annotated `src` and `dst` of equal width,
height and depth, of the same family and with the same declared format (or of
depth 1), the same bpp, unit, scanline pad, byte order and bit order,
`xcb_image_convert(src,dst)` returns `dst` and every one of the `size` data
bytes of `dst` equals the byte of `src` at the same offset. -/
theorem convert_identical_layout (src dst : xcb_image_t)
    (hs : image_format_valid src = true) (hd : image_format_valid dst = true)
    (hsa : annotated src) (hda : annotated dst)
    (hw : src.width = dst.width) (hh : src.height = dst.height) (hdp : src.depth = dst.depth)
    (hfam : family src = family dst)
    (hfmt : src.format = dst.format ∨ src.depth = 1)
    (hbpp : src.bpp = dst.bpp) (hu : src.unit = dst.unit)
    (hp : src.scanline_pad = dst.scanline_pad)
    (hbo : src.byte_order = dst.byte_order) (hbi : src.bit_order = dst.bit_order) :
    ∃ dst1, xcb_image_convert src dst = some (true, dst1) ∧
      ∀ i, i < dst.size → dst1.data i = src.data i := by
  have hsize : src.size = dst.size := by
    rw [hsa.2.2, hda.2.2]; exact annotate_size_eq src dst hfam hw hh hdp hbpp hp
  unfold family at hfam
  have hfam1 := hfam.symm
  rcases effective_format_cases src.format src.bpp with ⟨he, hz, hb1⟩ | ⟨he, hnz⟩ <;>
    rw [he] at hfam1
  · have hdz : dst.format = Z_PIXMAP := by
      rcases effective_format_cases dst.format dst.bpp with ⟨_, h, _⟩ | ⟨h, _⟩
      · exact h
      · rw [hfam1] at h; exact absurd h (by decide)
    refine ⟨{ dst with data := memcpy dst.data src.data src.size }, ?_, ?_⟩
    · unfold xcb_image_convert
      rw [he]
      simp [hs, hd, hw, hh, hdp, hz, hdz, hbpp, hbo]
    · intro i hi
      simp [memcpy, hsize, hi]
  · refine ⟨{ dst with data := memcpy dst.data src.data src.size }, ?_, ?_⟩
    · unfold xcb_image_convert
      rw [he]
      rcases hfmt with hfmt | hfmt
      · simp [hs, hd, hw, hh, hdp, hfmt, hbpp, hu, hp, hbo, hbi]
      · have hfmt1 : dst.depth = 1 := hdp ▸ hfmt
        simp [hs, hd, hw, hh, hdp, hfmt1, hbpp, hu, hp, hbo, hbi]
    · intro i hi
      simp [memcpy, hsize, hi]

/-- The byte copy of C4 on two packed images of one pixel with the same
layout. -/
theorem convert_identical_layout_witness :
    ∃ dst1, xcb_image_convert ex_packed8_lsb ex_packed8_lsb_dst = some (true, dst1) ∧
      ∀ i, i < ex_packed8_lsb_dst.size → dst1.data i = ex_packed8_lsb.data i :=
  convert_identical_layout ex_packed8_lsb ex_packed8_lsb_dst (by decide) (by decide)
    ⟨rfl, rfl, rfl⟩ ⟨rfl, rfl, rfl⟩ rfl rfl rfl rfl (Or.inl rfl) rfl rfl rfl rfl rfl

/-- C4 as stated fails: an `XY_BITMAP` source and an `XY_PIXMAP` destination of
depth 2 are of the same (planar) family and agree in geometry, bpp, unit, pad
and both orders, yet the conversion copies pixel by pixel, and the first byte
of the destination differs from the first byte of the source. -/
theorem convert_same_family_not_copied :
    image_format_valid ex_bitmap2_src = true ∧ image_format_valid ex_planar2 = true ∧
    ex_bitmap2_src.width = ex_planar2.width ∧ ex_bitmap2_src.height = ex_planar2.height ∧
    ex_bitmap2_src.depth = ex_planar2.depth ∧
    family ex_bitmap2_src = family ex_planar2 ∧
    ex_bitmap2_src.bpp = ex_planar2.bpp ∧ ex_bitmap2_src.unit = ex_planar2.unit ∧
    ex_bitmap2_src.scanline_pad = ex_planar2.scanline_pad ∧
    ex_bitmap2_src.byte_order = ex_planar2.byte_order ∧
    ex_bitmap2_src.bit_order = ex_planar2.bit_order ∧
    0 < ex_planar2.size ∧
    ∃ dst1, xcb_image_convert ex_bitmap2_src ex_planar2 = some (true, dst1) ∧
      dst1.data 0 ≠ ex_bitmap2_src.data 0 :=
  ⟨by decide, by decide, by decide, by decide, by decide, by decide, by decide, by decide,
    by decide, by decide, by decide, by decide, _, rfl, by decide⟩

/-! ## Conversion: evaluations of the code -/

/-- C5, evaluated on the code: a planar image of depth 2 whose pixel reads 2 is
converted into a packed image of 4 bits per pixel and that one into a fresh
planar image of the first layout; the pixel of the result reads 1. -/
theorem convert_round_trip_changes_pixel :
    image_format_valid ex_planar2_src = true ∧ image_format_valid ex_packed4_dst = true ∧
    xcb_image_get_pixel ex_planar2_src 0 0 = some 2 ∧
    ∃ b1 a1, xcb_image_convert ex_planar2_src ex_packed4_dst = some (true, b1) ∧
      xcb_image_convert b1 ex_planar2 = some (true, a1) ∧
      xcb_image_get_pixel a1 0 0 = some 1 :=
  ⟨by decide, by decide, by decide, _, _, rfl, rfl, by decide⟩

/-- C7, evaluated on the code: a bitmap of 32 pixels in one 32-bit unit, least
significant byte first, is converted into the same layout with the most
significant byte first; the pixel at `(0, 0)` reads 1 in the source and 0 in
the destination, since the conversion reverses the four bytes of the unit and
`xcb_image_get_pixel` addresses the byte `x >> 3` in either byte order. -/
theorem bitmap_convert_changes_pixel :
    image_format_valid ex_bitmap32_src = true ∧ image_format_valid ex_bitmap32_dst = true ∧
    xcb_image_get_pixel ex_bitmap32_src 0 0 = some 1 ∧
    ∃ dst1, xcb_image_convert ex_bitmap32_src ex_bitmap32_dst = some (true, dst1) ∧
      xcb_image_get_pixel dst1 0 0 = some 0 :=
  ⟨by decide, by decide, by decide, _, rfl, by decide⟩

/-- C8, evaluated on the code: a packed image of eight bits per pixel with both
orders least significant first is converted into one with both orders most
significant first; the pixel reads 1 in the source and 128 in the destination,
since the bits of every byte are reversed and `xcb_image_get_pixel` does not
look at the bit order of a packed image. -/
theorem order_convert_changes_pixel :
    image_format_valid ex_packed8_lsb = true ∧ image_format_valid ex_packed8_msb = true ∧
    xcb_image_get_pixel ex_packed8_lsb 0 0 = some 1 ∧
    ∃ dst1, xcb_image_convert ex_packed8_lsb ex_packed8_msb = some (true, dst1) ∧
      xcb_image_get_pixel dst1 0 0 = some 128 :=
  ⟨by decide, by decide, by decide, _, rfl, by decide⟩

/-! ## Conversion of packed 16-bit images between byte orders -/

/-- Once a mapping lands beyond the destination stride, the rest of the row is
dropped: the `continue` leaves `minor` and `major` as they are. -/
theorem swap_image_row_stuck (src : Nat → Nat) (soff doff D : Nat) (tbl : List Nat)
    (ub : Nat) (bs ns : Bool) (minor major : Nat)
    (h : u32 (major + tbl.getD minor 0) > D) :
    ∀ (n s : Nat) (dst : Nat → Nat),
      swap_image_row src soff doff D tbl ub bs ns n s minor major dst = dst := by
  intro n
  induction n with
  | zero => intro s dst; rfl
  | succ n ih =>
    intro s dst
    rw [swap_image_row]
    simp only [h, if_true]
    exact ih (s + 1) dst

/-- One row of `swap_image` with the table `{1, 0}` and units of two bytes,
from an even offset `s` on: the bytes below both the source and the destination
stride are written to the other position of their pair. -/
theorem swap_image_row_pairs (src : Nat → Nat) (soff doff D : Nat) (hD : D % 2 = 0) :
    ∀ (k s : Nat) (dst : Nat → Nat), s % 2 = 0 → s + 2 * k < 4294967296 →
      swap_image_row src soff doff D [1, 0] 2 false false (2 * k) s 0 s dst =
        fun a => if doff + s ≤ a ∧ a < doff + min (s + 2 * k) D
          then load src (soff + swap_index (a - doff)) else dst a := by
  intro k
  induction k with
  | zero =>
    intro s dst _ _
    funext a
    have : ¬ (doff + s ≤ a ∧ a < doff + min (s + 2 * 0) D) := by omega
    simp only [this, if_false]
    rfl
  | succ k ih =>
    intro s dst hs hlt
    have e : 2 * (k + 1) = (2 * k + 1) + 1 := by ring
    rw [e, swap_image_row]
    have hd0 : u32 (s + [1, 0].getD 0 0) = s + 1 := by
      simp [u32]; omega
    rw [hd0]
    by_cases hgt : s + 1 > D
    · simp only [hgt, if_true]
      rw [swap_image_row_stuck _ _ _ _ _ _ _ _ _ _ (by rw [hd0]; exact hgt)]
      funext a
      have : ¬ (doff + s ≤ a ∧ a < doff + min (s + ((2 * k + 1) + 1)) D) := by omega
      simp only [this, if_false]
    · simp only [hgt, if_false]
      have h1 : ¬ ((0 : Nat) + 1 = 2) := by norm_num
      simp only [h1, if_false]
      rw [swap_image_row]
      have hd1 : u32 (s + [1, 0].getD (0 + 1) 0) = s := by
        simp [u32]; omega
      rw [hd1]
      have hle : ¬ s > D := by omega
      have h2 : (0 : Nat) + 1 + 1 = 2 := by norm_num
      have hu : u32 (s + 2) = s + 2 := by simp [u32]; omega
      simp only [hle, if_false, h2, if_true, hu]
      rw [ih (s + 1 + 1) _ (by omega) (by omega)]
      funext a
      simp only [store, Bool.false_eq_true, if_false]
      have hl : ∀ b, load src b % 256 = load src b := fun b => Nat.mod_eq_of_lt (load_lt src b)
      by_cases ha0 : a = doff + s
      · subst ha0
        have c1 : ¬ (doff + (s + 1 + 1) ≤ doff + s ∧ doff + s < doff + min (s + 1 + 1 + 2 * k) D) := by
          omega
        have c2 : (doff + s ≤ doff + s ∧ doff + s < doff + min (s + (2 * k + 1 + 1)) D) := by
          omega
        have c3 : doff + s ≠ doff + (s + 1) := by omega
        simp only [c1, c2, c3, if_false, if_true, hl]
        congr 2
        unfold swap_index; split <;> omega
      · by_cases ha1 : a = doff + (s + 1)
        · subst ha1
          have c1 : ¬ (doff + (s + 1 + 1) ≤ doff + (s + 1) ∧
              doff + (s + 1) < doff + min (s + 1 + 1 + 2 * k) D) := by omega
          have c2 : (doff + s ≤ doff + (s + 1) ∧
              doff + (s + 1) < doff + min (s + (2 * k + 1 + 1)) D) := by omega
          simp only [c1, c2, ha0, if_false, if_true, hl]
          congr 2
          unfold swap_index; split <;> omega
        · have c : (doff + (s + 1 + 1) ≤ a ∧ a < doff + min (s + 1 + 1 + 2 * k) D) ↔
              (doff + s ≤ a ∧ a < doff + min (s + (2 * k + 1 + 1)) D) := by omega
          simp only [c, ha0, ha1, if_false]

/-- The result of `swap_image` for pairs of bytes: the bytes of every row that
lie below both strides are swapped in pairs, the bytes before the first row are
kept. -/
theorem swap_image_rows_pairs (src : Nat → Nat) (S D : Nat) (hS : S % 2 = 0) (hD : D % 2 = 0)
    (hS32 : S < 4294967296) :
    ∀ (h soff doff : Nat) (dst : Nat → Nat),
      (∀ a, a < doff →
        swap_image_rows src S D [1, 0] 2 false false h soff doff dst a = dst a) ∧
      (∀ r c, r < h → c < min S D →
        swap_image_rows src S D [1, 0] 2 false false h soff doff dst (doff + r * D + c) =
          load src (soff + r * S + swap_index c)) := by
  intro h
  obtain ⟨k, hk⟩ : ∃ k, S = 2 * k := ⟨S / 2, by omega⟩
  have hrow : ∀ soff doff dst,
      swap_image_row src soff doff D [1, 0] 2 false false S 0 0 0 dst =
        fun a => if doff ≤ a ∧ a < doff + min S D
          then load src (soff + swap_index (a - doff)) else dst a := by
    intro soff doff dst
    have := swap_image_row_pairs src soff doff D hD k 0 dst (by norm_num) (by omega)
    rw [← hk] at this
    simpa using this
  induction h with
  | zero =>
    intro soff doff dst
    exact ⟨fun a _ => rfl, fun r c hr _ => absurd hr (by omega)⟩
  | succ h ih =>
    intro soff doff dst
    rw [swap_image_rows, hrow]
    obtain ⟨ih1, ih2⟩ := ih (soff + S) (doff + D) (fun a => if doff ≤ a ∧ a < doff + min S D
          then load src (soff + swap_index (a - doff)) else dst a)
    constructor
    · intro a ha
      rw [ih1 a (by omega)]
      have : ¬ (doff ≤ a ∧ a < doff + min S D) := by omega
      simp only [this, if_false]
    · intro r c hr hc
      cases r with
      | zero =>
        have e0 : doff + 0 * D + c = doff + c := by ring
        have e1 : soff + 0 * S + swap_index c = soff + swap_index c := by ring
        rw [e0, e1, ih1 _ (by omega)]
        have : (doff ≤ doff + c ∧ doff + c < doff + min S D) := by omega
        rw [if_pos this, Nat.add_sub_cancel_left]
      | succ r =>
        have e1 : doff + (r + 1) * D + c = doff + D + r * D + c := by ring
        have e2 : soff + (r + 1) * S + swap_index c = soff + S + r * S + swap_index c := by ring
        rw [e1, e2]
        exact ih2 r c (by omega) hc

/-- The conversion of a packed 16-bit image into one of the other byte order
and the same bit order is one call of `swap_image` on pairs of bytes. -/
theorem convert_packed16_eq (src dst : xcb_image_t)
    (hs : image_format_valid src = true) (hd : image_format_valid dst = true)
    (hsf : src.format = Z_PIXMAP) (hdf : dst.format = Z_PIXMAP)
    (hsb : src.bpp = 16) (hdb : dst.bpp = 16)
    (hw : src.width = dst.width) (hh : src.height = dst.height) (hdp : src.depth = dst.depth)
    (hbit : src.bit_order = dst.bit_order)
    (hso : src.byte_order = LSB_FIRST) (hdo : dst.byte_order = MSB_FIRST) :
    xcb_image_convert src dst = some (true,
      { dst with
        data := swap_image src.data src.stride dst.data dst.stride [1, 0] 2 src.height false false
      }) := by
  have hu : src.unit = 16 := by
    have := format_valid_true src.depth src.bpp src.unit src.format src.scanline_pad hs
    rw [hsb] at this
    simp [hsf] at this
    omega
  have he : effective_format src.format src.bpp = Z_PIXMAP := by
    simp [effective_format, hsf, hsb]
  unfold xcb_image_convert
  rw [he]
  simp [hs, hd, hw, hh, hdp, hsf, hdf, hsb, hdb, hso, hdo, convert_after_switch, hbit, hu,
    conversion_byte_order, reverse_order]

/-- The stride that `xcb_image_annotate` gives a packed image. -/
theorem annotate_stride_packed (image : xcb_image_t)
    (he : effective_format image.format image.bpp = Z_PIXMAP) :
    (xcb_image_annotate image).stride =
      u32 (xcb_roundup (u32 (image.width * image.bpp)) image.scanline_pad) >>> 3 := by
  unfold xcb_image_annotate
  rw [he]

/-- Rounding up to a scanline pad of 8, 16 or 32 bits and dividing by eight. -/
theorem roundup_pad_bounds (n pad : Nat) (hp : pad = 8 ∨ pad = 16 ∨ pad = 32)
    (hn : n < 2147483648) :
    n ≤ 8 * (u32 (xcb_roundup (u32 n) pad) >>> 3) ∧
    8 * (u32 (xcb_roundup (u32 n) pad) >>> 3) < n + pad ∧
    (8 * (u32 (xcb_roundup (u32 n) pad) >>> 3)) % pad = 0 := by
  unfold xcb_roundup u32
  rw [Nat.shiftRight_eq_div_pow]
  rcases hp with hp | hp | hp <;> subst hp <;> omega

/-- The read of a packed 16-bit pixel, least significant byte first. -/
theorem get_pixel_z16_lsb (image : xcb_image_t) (x y : Nat)
    (hf : image.format = Z_PIXMAP) (hb : image.bpp = 16) (ho : image.byte_order = LSB_FIRST)
    (hx : x < image.width) (hy : y < image.height) :
    xcb_image_get_pixel image x y =
      some (load image.data (u32 (y * image.stride) + u32 (x <<< 1)) |||
        (load image.data (u32 (y * image.stride) + u32 (u32 (x <<< 1) + 1)) <<< 8)) := by
  simp [xcb_image_get_pixel, hf, hb, ho, hx, hy]

/-- The read of a packed 16-bit pixel, most significant byte first. -/
theorem get_pixel_z16_msb (image : xcb_image_t) (x y : Nat)
    (hf : image.format = Z_PIXMAP) (hb : image.bpp = 16) (ho : image.byte_order = MSB_FIRST)
    (hx : x < image.width) (hy : y < image.height) :
    xcb_image_get_pixel image x y =
      some ((load image.data (u32 (y * image.stride) + u32 (x <<< 1)) <<< 8) |||
        load image.data (u32 (y * image.stride) + u32 (u32 (x <<< 1) + 1))) := by
  simp [xcb_image_get_pixel, hf, hb, ho, hx, hy]

/-- What `xcb_image_convert` does to a packed 16-bit image whose byte order
changes from least to most significant byte first: the fields of `dst` are
kept and the bytes of every row are swapped in pairs.  No bound on the size of
the images is assumed. -/
theorem convert_packed16_data (src dst : xcb_image_t)
    (hs : image_format_valid src = true) (hd : image_format_valid dst = true)
    (hsa : annotated src) (hda : annotated dst)
    (hsf : src.format = Z_PIXMAP) (hdf : dst.format = Z_PIXMAP)
    (hsb : src.bpp = 16) (hdb : dst.bpp = 16)
    (hsp : src.scanline_pad = 8 ∨ src.scanline_pad = 16 ∨ src.scanline_pad = 32)
    (hdpad : dst.scanline_pad = 8 ∨ dst.scanline_pad = 16 ∨ dst.scanline_pad = 32)
    (hw : src.width = dst.width) (hh : src.height = dst.height) (hdp : src.depth = dst.depth)
    (hw16 : src.width < 65536)
    (hbit : src.bit_order = dst.bit_order)
    (hso : src.byte_order = LSB_FIRST) (hdo : dst.byte_order = MSB_FIRST) :
    ∃ dst1, xcb_image_convert src dst = some (true, dst1) ∧
      dst1.format = Z_PIXMAP ∧ dst1.bpp = 16 ∧ dst1.byte_order = MSB_FIRST ∧
      dst1.width = dst.width ∧ dst1.height = dst.height ∧ dst1.stride = dst.stride ∧
      ∀ r c, r < src.height → c < 2 * src.width →
        dst1.data (r * dst.stride + c) = load src.data (r * src.stride + swap_index c) := by
  refine ⟨_, convert_packed16_eq src dst hs hd hsf hdf hsb hdb hw hh hdp hbit hso hdo,
    hdf, hdb, hdo, rfl, rfl, rfl, ?_⟩
  have hse : effective_format src.format src.bpp = Z_PIXMAP := by
    simp [effective_format, hsf, hsb]
  have hde : effective_format dst.format dst.bpp = Z_PIXMAP := by
    simp [effective_format, hdf, hdb]
  have hS := hsa.2.1
  have hD := hda.2.1
  rw [annotate_stride_packed src hse] at hS
  rw [annotate_stride_packed dst hde] at hD
  have bS := roundup_pad_bounds (src.width * src.bpp) src.scanline_pad hsp (by rw [hsb]; omega)
  have bD := roundup_pad_bounds (dst.width * dst.bpp) dst.scanline_pad hdpad
    (by rw [hdb, ← hw]; omega)
  rw [← hS] at bS
  rw [← hD] at bD
  rw [hsb] at bS
  rw [hdb, ← hw] at bD
  have hSe : src.stride % 2 = 0 := by rcases hsp with h | h | h <;> rw [h] at bS <;> omega
  have hDe : dst.stride % 2 = 0 := by rcases hdpad with h | h | h <;> rw [h] at bD <;> omega
  have hS32 : src.stride < 4294967296 := by rcases hsp with h | h | h <;> rw [h] at bS <;> omega
  obtain ⟨_, hval⟩ := swap_image_rows_pairs src.data src.stride dst.stride hSe hDe hS32
    src.height 0 0 dst.data
  intro r c hr hc
  have v := hval r c hr (by omega)
  simp only [Nat.zero_add] at v
  exact v

/-- C9, as amended: for format-valid annotated packed images of 16 bits per
pixel with scanline pads in {8,16,32}, equal width (below `2^16`), height and
depth and the same bit order, `src` least and `dst` most significant byte
first, and with `height * stride < 2^32` on both sides,
`xcb_image_convert(src,dst)` returns `dst`, and for every in-bounds `(x, y)`
byte `2x` of row `y` of `dst` is byte `2x+1` of row `y` of `src`, byte `2x+1`
is byte `2x`, and `xcb_image_get_pixel` returns the same value on both. -/
theorem convert_packed16_swaps (src dst : xcb_image_t)
    (hs : image_format_valid src = true) (hd : image_format_valid dst = true)
    (hsa : annotated src) (hda : annotated dst)
    (hsf : src.format = Z_PIXMAP) (hdf : dst.format = Z_PIXMAP)
    (hsb : src.bpp = 16) (hdb : dst.bpp = 16)
    (hsp : src.scanline_pad = 8 ∨ src.scanline_pad = 16 ∨ src.scanline_pad = 32)
    (hdpad : dst.scanline_pad = 8 ∨ dst.scanline_pad = 16 ∨ dst.scanline_pad = 32)
    (hw : src.width = dst.width) (hh : src.height = dst.height) (hdp : src.depth = dst.depth)
    (hw16 : src.width < 65536)
    (hbit : src.bit_order = dst.bit_order)
    (hso : src.byte_order = LSB_FIRST) (hdo : dst.byte_order = MSB_FIRST)
    (hsfit : src.height * src.stride < 4294967296)
    (hdfit : dst.height * dst.stride < 4294967296) :
    ∃ dst1, xcb_image_convert src dst = some (true, dst1) ∧
      ∀ x y, x < src.width → y < src.height →
        load dst1.data (y * dst.stride + 2 * x) = load src.data (y * src.stride + 2 * x + 1) ∧
        load dst1.data (y * dst.stride + 2 * x + 1) = load src.data (y * src.stride + 2 * x) ∧
        ∃ p, xcb_image_get_pixel src x y = some p ∧ xcb_image_get_pixel dst1 x y = some p := by
  obtain ⟨dst1, hc, h1f, h1b, h1o, h1w, h1h, h1s, hdata⟩ :=
    convert_packed16_data src dst hs hd hsa hda hsf hdf hsb hdb hsp hdpad hw hh hdp hw16 hbit
      hso hdo
  refine ⟨dst1, hc, ?_⟩
  intro x y hx hy
  have v0 := hdata y (2 * x) hy (by omega)
  have v1 := hdata y (2 * x + 1) hy (by omega)
  have f0 : swap_index (2 * x) = 2 * x + 1 := by unfold swap_index; split <;> omega
  have f1 : swap_index (2 * x + 1) = 2 * x := by unfold swap_index; split <;> omega
  rw [f0] at v0
  rw [f1] at v1
  have l0 : load dst1.data (y * dst.stride + 2 * x) =
      load src.data (y * src.stride + 2 * x + 1) := by
    rw [load, v0, Nat.mod_eq_of_lt (load_lt _ _), Nat.add_assoc]
  have l1 : load dst1.data (y * dst.stride + 2 * x + 1) =
      load src.data (y * src.stride + 2 * x) := by
    rw [load, Nat.add_assoc, v1, Nat.mod_eq_of_lt (load_lt _ _)]
  have hys : (y + 1) * src.stride ≤ src.height * src.stride :=
    Nat.mul_le_mul_right _ (by omega)
  have hyd1 : (y + 1) * dst.stride ≤ dst.height * dst.stride :=
    Nat.mul_le_mul_right _ (by omega)
  rw [Nat.add_mul] at hys hyd1
  have rs : u32 (y * src.stride) = y * src.stride := by unfold u32; omega
  have rd : u32 (y * dst.stride) = y * dst.stride := by unfold u32; omega
  have i0 : u32 (x <<< 1) = 2 * x := by rw [Nat.shiftLeft_eq]; unfold u32; omega
  have i1 : u32 (2 * x + 1) = 2 * x + 1 := by unfold u32; omega
  refine ⟨l0, l1, _, get_pixel_z16_lsb src x y hsf hsb hso hx hy, ?_⟩
  rw [get_pixel_z16_msb dst1 x y h1f h1b h1o (by omega) (by omega), h1s]
  simp only [rs, rd, i0, i1]
  rw [← Nat.add_assoc, ← Nat.add_assoc, l0, l1, Nat.lor_comm]

/-- The swap of C9 on the example of the specification: four pixels
`0x1234`, `0x5678`, `0x9ABC`, `0xDEF0` in one row. -/
theorem convert_packed16_swaps_witness :
    ∃ dst1, xcb_image_convert ex_packed16_src ex_packed16_dst = some (true, dst1) ∧
      ∀ x y, x < ex_packed16_src.width → y < ex_packed16_src.height →
        load dst1.data (y * ex_packed16_dst.stride + 2 * x) =
          load ex_packed16_src.data (y * ex_packed16_src.stride + 2 * x + 1) ∧
        load dst1.data (y * ex_packed16_dst.stride + 2 * x + 1) =
          load ex_packed16_src.data (y * ex_packed16_src.stride + 2 * x) ∧
        ∃ p, xcb_image_get_pixel ex_packed16_src x y = some p ∧
          xcb_image_get_pixel dst1 x y = some p :=
  convert_packed16_swaps ex_packed16_src ex_packed16_dst (by decide) (by decide)
    ⟨rfl, rfl, rfl⟩ ⟨rfl, rfl, rfl⟩ rfl rfl rfl rfl (by decide) (by decide) rfl rfl rfl
    (by decide) rfl rfl rfl (by decide) (by decide)

/-- C9 as stated fails: on two packed 16-bit images of 65535 by 32769 pixels
with scanline pads 16 and 32 the conversion swaps the bytes of every row, yet
the pixel `(0, 32768)` reads 1 in the source and 0 in the destination, since
`xcb_image_get_pixel` computes the row offset `32768 * 131072` in 32 bits,
which is 0. -/
theorem convert_packed16_wraps :
    image_format_valid ex_huge16_src = true ∧ image_format_valid ex_huge16_dst = true ∧
    ex_huge16_src.format = Z_PIXMAP ∧ ex_huge16_dst.format = Z_PIXMAP ∧
    ex_huge16_src.bpp = 16 ∧ ex_huge16_dst.bpp = 16 ∧
    ex_huge16_src.width = ex_huge16_dst.width ∧ ex_huge16_src.height = ex_huge16_dst.height ∧
    ex_huge16_src.depth = ex_huge16_dst.depth ∧
    ex_huge16_src.bit_order = ex_huge16_dst.bit_order ∧
    ex_huge16_src.byte_order = LSB_FIRST ∧ ex_huge16_dst.byte_order = MSB_FIRST ∧
    0 < ex_huge16_src.width ∧ 32768 < ex_huge16_src.height ∧
    ∃ dst1, xcb_image_convert ex_huge16_src ex_huge16_dst = some (true, dst1) ∧
      xcb_image_get_pixel ex_huge16_src 0 32768 = some 1 ∧
      xcb_image_get_pixel dst1 0 32768 = some 0 := by
  obtain ⟨dst1, hc, h1f, h1b, h1o, h1w, h1h, h1s, hdata⟩ :=
    convert_packed16_data ex_huge16_src ex_huge16_dst (by decide) (by decide)
      ⟨rfl, rfl, rfl⟩ ⟨rfl, rfl, rfl⟩ rfl rfl rfl rfl (by decide) (by decide) rfl rfl rfl
      (by decide) rfl rfl rfl
  refine ⟨by decide, by decide, rfl, rfl, rfl, rfl, rfl, rfl, rfl, rfl, rfl, rfl, by decide,
    by decide, dst1, hc, by decide, ?_⟩
  have hD : ex_huge16_dst.stride = 131072 := by decide
  have hW : ex_huge16_dst.width = 65535 := by decide
  have hH : ex_huge16_dst.height = 32769 := by decide
  rw [get_pixel_z16_msb dst1 0 32768 h1f h1b h1o (by rw [h1w, hW]; norm_num)
    (by rw [h1h, hH]; norm_num), h1s, hD]
  have a0 : u32 (32768 * 131072) + u32 (0 <<< 1) = 0 * ex_huge16_dst.stride + 0 := by decide
  have a1 : u32 (32768 * 131072) + u32 (u32 (0 <<< 1) + 1) = 0 * ex_huge16_dst.stride + 1 := by
    decide
  rw [a0, a1, load, load, hdata 0 0 (by decide) (by decide), hdata 0 1 (by decide) (by decide)]
  decide

/-! ## Conversion between packed images of different pixel sizes -/

/-- A shift to the left by one bit is a multiplication by two. -/
theorem shl1 (x : Nat) : x <<< 1 = 2 * x := by
  have := Nat.shiftLeft_eq x 1; omega

/-- A shift to the left by two bits is a multiplication by four. -/
theorem shl2 (x : Nat) : x <<< 2 = 4 * x := by
  have := Nat.shiftLeft_eq x 2; omega

/-- A shift to the right by one bit is a division by two. -/
theorem shr1 (x : Nat) : x >>> 1 = x / 2 := by
  have := Nat.shiftRight_eq_div_pow x 1; omega

/-- A store leaves every other offset as it is. -/
theorem store_ne (data : Nat → Nat) (a b v : Nat) (h : b ≠ a) : store data a v b = data b := by
  simp [store, h]

/-- A write of a packed pixel keeps the fields of the image and changes no byte
outside the bytes of the pixel. -/
theorem put_pixel_packed_data (image : xcb_image_t) (x y v : Nat)
    (hf : image.format = Z_PIXMAP)
    (hb : image.bpp = 4 ∨ image.bpp = 8 ∨ image.bpp = 16 ∨ image.bpp = 24 ∨ image.bpp = 32)
    (hx : x < image.width) (hy : y < image.height) (hx16 : x < 65536) :
    ∃ d, xcb_image_put_pixel image x y v = some (with_data image d) ∧
      ∀ a, (a < pixel_lo image x y ∨ pixel_hi image x y ≤ a) → d a = image.data a := by
  have hx1 : ¬ x > image.width := by omega
  have hy1 : ¬ y > image.height := by omega
  unfold pixel_hi pixel_lo
  rcases hb with hb | hb | hb | hb | hb <;> rw [hb]
  · by_cases hs : (x &&& 1) = is_msb image.byte_order
    · simp only [xcb_image_put_pixel, hf, hb, hx1, hy1, hs, or_self, if_false, if_true]
      refine ⟨_, by simp only [with_data, hf, hb, hb]; rfl, ?_⟩
      intro a ha
      rw [store_ne _ _ _ _ (by rw [shr1]; omega)]
    · simp only [xcb_image_put_pixel, hf, hb, hx1, hy1, hs, or_self, if_false, if_true]
      refine ⟨_, by simp only [with_data, hf, hb, hb]; rfl, ?_⟩
      intro a ha
      rw [store_ne _ _ _ _ (by rw [shr1]; omega)]
  · simp only [xcb_image_put_pixel, hf, hb, hx1, hy1, or_self, if_false, if_true,
      Nat.reduceEqDiff]
    refine ⟨_, by simp only [with_data, hf, hb, hb]; rfl, ?_⟩
    intro a ha
    rw [store_ne _ _ _ _ (by omega)]
  · have i0 : u32 (x <<< 1) = 2 * x := by rw [shl1]; unfold u32; omega
    have i1 : u32 (2 * x + 1) = 2 * x + 1 := by unfold u32; omega
    cases hbo : image.byte_order <;>
    · simp only [xcb_image_put_pixel, hf, hb, hx1, hy1, hbo, or_self, if_false, if_true, i0, i1,
        Nat.reduceEqDiff]
      refine ⟨_, by simp only [with_data, hf, hb, hbo]; rfl, ?_⟩
      intro a ha
      rw [store_ne _ _ _ _ (by omega), store_ne _ _ _ _ (by omega)]
  · have i0 : u32 (x * 3) = x * 3 := by unfold u32; omega
    have i1 : u32 (x * 3 + 1) = x * 3 + 1 := by unfold u32; omega
    have i2 : u32 (x * 3 + 2) = x * 3 + 2 := by unfold u32; omega
    cases hbo : image.byte_order <;>
    · simp only [xcb_image_put_pixel, hf, hb, hx1, hy1, hbo, or_self, if_false, if_true, i0, i1,
        i2, Nat.reduceEqDiff]
      refine ⟨_, by simp only [with_data, hf, hb, hbo]; rfl, ?_⟩
      intro a ha
      rw [store_ne _ _ _ _ (by omega), store_ne _ _ _ _ (by omega), store_ne _ _ _ _ (by omega)]
  · have i0 : u32 (x <<< 2) = 4 * x := by rw [shl2]; unfold u32; omega
    have i1 : u32 (4 * x + 1) = 4 * x + 1 := by unfold u32; omega
    have i2 : u32 (4 * x + 2) = 4 * x + 2 := by unfold u32; omega
    have i3 : u32 (4 * x + 3) = 4 * x + 3 := by unfold u32; omega
    cases hbo : image.byte_order <;>
    · simp only [xcb_image_put_pixel, hf, hb, hx1, hy1, hbo, or_self, if_false, if_true, i0, i1,
        i2, i3, Nat.reduceEqDiff]
      refine ⟨_, by simp only [with_data, hf, hb, hbo]; rfl, ?_⟩
      intro a ha
      rw [store_ne _ _ _ _ (by omega), store_ne _ _ _ _ (by omega), store_ne _ _ _ _ (by omega),
        store_ne _ _ _ _ (by omega)]

/-- A read of a packed pixel looks only at the bytes of the pixel. -/
theorem get_pixel_packed_congr (image : xcb_image_t) (d1 d2 : Nat → Nat) (x y : Nat)
    (hf : image.format = Z_PIXMAP)
    (hb : image.bpp = 4 ∨ image.bpp = 8 ∨ image.bpp = 16 ∨ image.bpp = 24 ∨ image.bpp = 32)
    (hx16 : x < 65536)
    (h : ∀ a, pixel_lo image x y ≤ a → a < pixel_hi image x y → load d1 a = load d2 a) :
    xcb_image_get_pixel (with_data image d1) x y = xcb_image_get_pixel (with_data image d2) x y := by
  unfold pixel_hi pixel_lo at h
  rcases hb with hb | hb | hb | hb | hb <;> rw [hb] at h
  · have e := h (u32 (y * image.stride) + x >>> 1) (by rw [shr1]; omega) (by rw [shr1]; omega)
    simp only [xcb_image_get_pixel, with_data, hf, hb, if_true, if_false, Nat.reduceEqDiff, e]
  · have e := h (u32 (y * image.stride) + x) (by omega) (by omega)
    simp only [xcb_image_get_pixel, with_data, hf, hb, if_true, if_false, Nat.reduceEqDiff, e]
  · have i0 : u32 (x <<< 1) = 2 * x := by rw [shl1]; unfold u32; omega
    have i1 : u32 (2 * x + 1) = 2 * x + 1 := by unfold u32; omega
    have e0 := h (u32 (y * image.stride) + 2 * x) (by omega) (by omega)
    have e1 := h (u32 (y * image.stride) + (2 * x + 1)) (by omega) (by omega)
    simp only [xcb_image_get_pixel, with_data, hf, hb, if_true, if_false, Nat.reduceEqDiff, i0, i1, e0, e1]
  · have i0 : u32 (x * 3) = x * 3 := by unfold u32; omega
    have i1 : u32 (x * 3 + 1) = x * 3 + 1 := by unfold u32; omega
    have i2 : u32 (x * 3 + 2) = x * 3 + 2 := by unfold u32; omega
    have e0 := h (u32 (y * image.stride) + x * 3) (by omega) (by omega)
    have e1 := h (u32 (y * image.stride) + (x * 3 + 1)) (by omega) (by omega)
    have e2 := h (u32 (y * image.stride) + (x * 3 + 2)) (by omega) (by omega)
    simp only [xcb_image_get_pixel, with_data, hf, hb, if_true, if_false, Nat.reduceEqDiff, i0, i1, i2, e0, e1, e2]
  · have i0 : u32 (x <<< 2) = 4 * x := by rw [shl2]; unfold u32; omega
    have i1 : u32 (4 * x + 1) = 4 * x + 1 := by unfold u32; omega
    have i2 : u32 (4 * x + 2) = 4 * x + 2 := by unfold u32; omega
    have i3 : u32 (4 * x + 3) = 4 * x + 3 := by unfold u32; omega
    have e0 := h (u32 (y * image.stride) + 4 * x) (by omega) (by omega)
    have e1 := h (u32 (y * image.stride) + (4 * x + 1)) (by omega) (by omega)
    have e2 := h (u32 (y * image.stride) + (4 * x + 2)) (by omega) (by omega)
    have e3 := h (u32 (y * image.stride) + (4 * x + 3)) (by omega) (by omega)
    simp only [xcb_image_get_pixel, with_data, hf, hb, if_true, if_false, Nat.reduceEqDiff, i0, i1, i2, i3, e0, e1, e2, e3]

/-- With four bits per pixel, a write of one pixel of a byte keeps the other
pixel of that byte. -/
theorem put_get_pixel_nibble (image : xcb_image_t) (x x1 y v : Nat)
    (hf : image.format = Z_PIXMAP) (hb : image.bpp = 4)
    (hx : x < image.width) (hx1 : x1 < image.width) (hy : y < image.height)
    (hne : x1 ≠ x) (hsame : x1 / 2 = x / 2) :
    ∃ d, xcb_image_put_pixel image x y v = some (with_data image d) ∧
      xcb_image_get_pixel (with_data image d) x1 y = xcb_image_get_pixel image x1 y := by
  have hxw : ¬ x > image.width := by omega
  have hyh : ¬ y > image.height := by omega
  have hs1 : x >>> 1 = x / 2 := shr1 x
  have hs2 : x1 >>> 1 = x / 2 := by rw [shr1, hsame]
  have hm : is_msb image.byte_order = 0 ∨ is_msb image.byte_order = 1 := by
    unfold is_msb; split <;> simp
  have hp : (x &&& 1 = is_msb image.byte_order) ↔ ¬ (x1 &&& 1 = is_msb image.byte_order) := by
    rw [Nat.and_one_is_mod, Nat.and_one_is_mod]; omega
  by_cases hs : (x &&& 1) = is_msb image.byte_order
  · have hs0 : ¬ (x1 &&& 1) = is_msb image.byte_order := hp.1 hs
    simp only [xcb_image_put_pixel, hf, hb, hxw, hyh, hs, or_self, if_false, if_true]
    refine ⟨_, by simp only [with_data, hf, hb]; rfl, ?_⟩
    have h := (nibble_high _ (load_lt image.data (u32 (y * image.stride) + x / 2))
      (v % 16) (Nat.mod_lt _ (by norm_num))).2
    simp only [xcb_image_get_pixel, with_data, hf, hb, hx1, hy, hs0, hs1, hs2, load_store_same,
      and15, and_self, not_true_eq_false, if_false, if_true]
    simp only [and15] at h
    rw [show (15 : Nat) <<< 4 = 240 by decide, h]
  · have hs0 : (x1 &&& 1) = is_msb image.byte_order := by
      by_contra hc; exact hs (hp.2 hc)
    simp only [xcb_image_put_pixel, hf, hb, hxw, hyh, hs, or_self, if_false, if_true]
    refine ⟨_, by simp only [with_data, hf, hb]; rfl, ?_⟩
    have h := (nibble_low _ (load_lt image.data (u32 (y * image.stride) + x / 2))
      (v % 16) (Nat.mod_lt _ (by norm_num))).2
    simp only [xcb_image_get_pixel, with_data, hf, hb, hx1, hy, hs0, hs1, hs2, load_store_same,
      and15, and_self, not_true_eq_false, if_false, if_true]
    rw [h]

/-- Two replacements of the data of one image agree only for equal data. -/
theorem with_data_inj (image : xcb_image_t) (d1 d2 : Nat → Nat)
    (h : with_data image d1 = with_data image d2) : d1 = d2 :=
  congrArg xcb_image_t.data h

/-- The effect of a write of a packed pixel: the fields are kept, the pixel
reads back, and every other pixel of the same row or of a row that does not
overlap reads as before. -/
theorem put_pixel_packed_spec (image : xcb_image_t) (x y v : Nat)
    (hf : image.format = Z_PIXMAP)
    (hb : image.bpp = 4 ∨ image.bpp = 8 ∨ image.bpp = 16 ∨ image.bpp = 24 ∨ image.bpp = 32)
    (hw16 : image.width < 65536) (hst : image.width * image.bpp ≤ 8 * image.stride)
    (hx : x < image.width) (hy : y < image.height) :
    ∃ d, xcb_image_put_pixel image x y v = some (with_data image d) ∧
      xcb_image_get_pixel (with_data image d) x y = some (v % 2 ^ image.bpp) ∧
      ∀ x1 y1, x1 < image.width → y1 < image.height → (x1 ≠ x ∨ y1 ≠ y) →
        rows_apart image y y1 →
        xcb_image_get_pixel (with_data image d) x1 y1 = xcb_image_get_pixel image x1 y1 := by
  obtain ⟨d, hput, hout⟩ := put_pixel_packed_data image x y v hf hb hx hy (by omega)
  obtain ⟨image1, hput1, hget1⟩ := put_get_pixel_packed image x y v hf hb hx hy
  have e1 : image1 = with_data image d := by
    rw [hput] at hput1; exact (Option.some.inj hput1).symm
  rw [e1] at hget1
  refine ⟨d, hput, hget1, ?_⟩
  intro x1 y1 hx1 hy1 hne hsep
  by_cases hcase : image.bpp = 4 ∧ y1 = y ∧ x1 / 2 = x / 2
  · obtain ⟨h4, hy1y, hxx⟩ := hcase
    have hx1x : x1 ≠ x := by
      rcases hne with h | h
      · exact h
      · exact absurd hy1y h
    obtain ⟨d2, hput2, hget2⟩ := put_get_pixel_nibble image x x1 y v hf h4 hx hx1 hy hx1x hxx
    have e2 : d2 = d := by
      rw [hput] at hput2; exact (with_data_inj image d d2 (Option.some.inj hput2)).symm
    rw [e2] at hget2
    rw [hy1y]; exact hget2
  · have key := get_pixel_packed_congr image d image.data x1 y1 hf hb (by omega) (by
      intro a hlo hhi
      have : d a = image.data a := by
        apply hout
        unfold rows_apart at hsep
        simp only [pixel_hi, pixel_lo] at hlo hhi ⊢
        rcases hsep with hsep | hsep
        · subst hsep
          rcases hb with hb | hb | hb | hb | hb <;> rw [hb] at hlo hhi hst hcase ⊢ <;> omega
        · rcases hb with hb | hb | hb | hb | hb <;> rw [hb] at hlo hhi hst hcase ⊢ <;> omega
      unfold load; rw [this])
    exact key

/-- A read of an in-bounds pixel of a packed image returns a value. -/
theorem get_pixel_packed_some (image : xcb_image_t) (x y : Nat)
    (hf : image.format = Z_PIXMAP)
    (hb : image.bpp = 4 ∨ image.bpp = 8 ∨ image.bpp = 16 ∨ image.bpp = 24 ∨ image.bpp = 32)
    (hx : x < image.width) (hy : y < image.height) :
    ∃ p, xcb_image_get_pixel image x y = some p := by
  rcases hb with hb | hb | hb | hb | hb
  · by_cases hs : (x &&& 1) = is_msb image.byte_order <;>
      exact ⟨_, by simp only [xcb_image_get_pixel, hf, hb, hx, hy, hs, and_self, not_true_eq_false,
        if_false, if_true]; rfl⟩
  · exact ⟨_, by simp only [xcb_image_get_pixel, hf, hb, hx, hy, and_self, not_true_eq_false,
      if_false, if_true, Nat.reduceEqDiff]; rfl⟩
  all_goals
    cases hbo : image.byte_order <;>
      exact ⟨_, by simp only [xcb_image_get_pixel, hf, hb, hx, hy, hbo, and_self,
        not_true_eq_false, if_false, if_true, Nat.reduceEqDiff]; rfl⟩

/-- The inner loop of the general case of `xcb_image_convert` on row `y`, from
column `x0` on: it completes, the pixels of the row from `x0` on hold the
source pixels, and the pixels before `x0` and the pixels of rows that do not
overlap row `y` read as before. -/
theorem convert_pixels_x_spec (src dst : xcb_image_t) (y : Nat)
    (hsf : src.format = Z_PIXMAP)
    (hsb : src.bpp = 4 ∨ src.bpp = 8 ∨ src.bpp = 16 ∨ src.bpp = 24 ∨ src.bpp = 32)
    (hdf : dst.format = Z_PIXMAP)
    (hdb : dst.bpp = 4 ∨ dst.bpp = 8 ∨ dst.bpp = 16 ∨ dst.bpp = 24 ∨ dst.bpp = 32)
    (hw : src.width = dst.width) (hh : src.height = dst.height)
    (hw16 : dst.width < 65536) (hst : dst.width * dst.bpp ≤ 8 * dst.stride)
    (hy : y < src.height) :
    ∀ (n x0 : Nat) (d0 : Nat → Nat), x0 + n = src.width →
      ∃ d1, convert_pixels_x src y n x0 (with_data dst d0) = some (with_data dst d1) ∧
        (∀ x1, x0 ≤ x1 → x1 < src.width →
          ∃ p, xcb_image_get_pixel src x1 y = some p ∧
            xcb_image_get_pixel (with_data dst d1) x1 y = some (p % 2 ^ dst.bpp)) ∧
        (∀ x1 y1, x1 < dst.width → y1 < dst.height → (y1 ≠ y ∨ x1 < x0) →
          rows_apart dst y y1 →
          xcb_image_get_pixel (with_data dst d1) x1 y1 =
            xcb_image_get_pixel (with_data dst d0) x1 y1) := by
  intro n
  induction n with
  | zero =>
    intro x0 d0 hx0
    exact ⟨d0, rfl, fun x1 h1 h2 => absurd h2 (by omega), fun _ _ _ _ _ _ => rfl⟩
  | succ n ih =>
    intro x0 d0 hx0
    have hx0w : x0 < src.width := by omega
    obtain ⟨p, hp⟩ := get_pixel_packed_some src x0 y hsf hsb hx0w hy
    obtain ⟨d, hput, hback, hframe⟩ :=
      put_pixel_packed_spec (with_data dst d0) x0 y p hdf hdb hw16 hst (hw ▸ hx0w) (hh ▸ hy)
    obtain ⟨d1, hloop, ha, hb⟩ := ih (x0 + 1) d (by omega)
    refine ⟨d1, ?_, ?_, ?_⟩
    · rw [convert_pixels_x, hp]
      simp only []
      rw [hput]
      exact hloop
    · intro x1 h1 h2
      by_cases hx : x1 = x0
      · subst hx
        refine ⟨p, hp, ?_⟩
        rw [hb x1 y (hw ▸ h2) (hh ▸ hy) (Or.inr (by omega)) (Or.inl rfl)]
        exact hback
      · exact ha x1 (by omega) h2
    · intro x1 y1 h1 h2 hne hap
      rw [hb x1 y1 h1 h2 (by omega) hap]
      exact hframe x1 y1 h1 h2 (by omega) hap

/-- The outer loop of the general case of `xcb_image_convert`, from row `y0`
on: it completes; a pixel of a row from `y0` on holds the source pixel when no
later row overlaps its row, and a pixel of a row before `y0` reads as before
when no row from `y0` on overlaps its row. -/
theorem convert_pixels_y_spec (src dst : xcb_image_t)
    (hsf : src.format = Z_PIXMAP)
    (hsb : src.bpp = 4 ∨ src.bpp = 8 ∨ src.bpp = 16 ∨ src.bpp = 24 ∨ src.bpp = 32)
    (hdf : dst.format = Z_PIXMAP)
    (hdb : dst.bpp = 4 ∨ dst.bpp = 8 ∨ dst.bpp = 16 ∨ dst.bpp = 24 ∨ dst.bpp = 32)
    (hw : src.width = dst.width) (hh : src.height = dst.height)
    (hw16 : dst.width < 65536) (hst : dst.width * dst.bpp ≤ 8 * dst.stride) :
    ∀ (n y0 : Nat) (d0 : Nat → Nat), y0 + n = src.height →
      ∃ d1, convert_pixels_y src n y0 (with_data dst d0) = some (with_data dst d1) ∧
        (∀ x1 y1, y0 ≤ y1 → y1 < src.height → x1 < src.width →
          (∀ y2, y1 < y2 → y2 < src.height → rows_apart dst y2 y1) →
          ∃ p, xcb_image_get_pixel src x1 y1 = some p ∧
            xcb_image_get_pixel (with_data dst d1) x1 y1 = some (p % 2 ^ dst.bpp)) ∧
        (∀ x1 y1, y1 < y0 → x1 < src.width →
          (∀ y2, y0 ≤ y2 → y2 < src.height → rows_apart dst y2 y1) →
          xcb_image_get_pixel (with_data dst d1) x1 y1 =
            xcb_image_get_pixel (with_data dst d0) x1 y1) := by
  intro n
  induction n with
  | zero =>
    intro y0 d0 hy0
    exact ⟨d0, rfl, fun x1 y1 h1 h2 => absurd h2 (by omega), fun _ _ _ _ _ => rfl⟩
  | succ n ih =>
    intro y0 d0 hy0
    have hy0h : y0 < src.height := by omega
    obtain ⟨d, hrow, hxa, hxb⟩ :=
      convert_pixels_x_spec src dst y0 hsf hsb hdf hdb hw hh hw16 hst hy0h src.width 0 d0
        (by omega)
    obtain ⟨d1, hloop, ha, hb⟩ := ih (y0 + 1) d (by omega)
    refine ⟨d1, ?_, ?_, ?_⟩
    · rw [convert_pixels_y, hrow]
      exact hloop
    · intro x1 y1 h1 h2 h3 hap
      by_cases hy : y1 = y0
      · subst hy
        obtain ⟨p, hp, hg⟩ := hxa x1 (by omega) h3
        refine ⟨p, hp, ?_⟩
        rw [hb x1 y1 (by omega) h3 (fun y2 h4 h5 => hap y2 (by omega) h5)]
        exact hg
      · exact ha x1 y1 (by omega) h2 h3 hap
    · intro x1 y1 h1 h3 hap
      rw [hb x1 y1 (by omega) h3 (fun y2 h4 h5 => hap y2 (by omega) h5)]
      exact hxb x1 y1 (hw ▸ h3) (by omega) (Or.inl (by omega)) (hap y0 (by omega) hy0h)

/-- A packed image has its declared format `Z_PIXMAP` and, when it is
format-valid, one of the five packed pixel sizes. -/
theorem packed_format_bpp (image : xcb_image_t) (hv : image_format_valid image = true)
    (hfam : family image = Z_PIXMAP) :
    image.format = Z_PIXMAP ∧
      (image.bpp = 4 ∨ image.bpp = 8 ∨ image.bpp = 16 ∨ image.bpp = 24 ∨ image.bpp = 32) := by
  unfold family at hfam
  rcases effective_format_cases image.format image.bpp with ⟨_, hz, hb1⟩ | ⟨he, _⟩
  · refine ⟨hz, ?_⟩
    have := format_valid_true image.depth image.bpp image.unit image.format
      image.scanline_pad hv
    rcases this with ⟨_, ⟨h1, _⟩ | ⟨_, h2, _⟩⟩
    · rcases h1 with h | h
      · exact absurd hz h
      · exact absurd h hb1
    · exact h2
  · rw [he] at hfam; exact absurd hfam (by decide)

/-- The conversion of a packed image into a packed image of another pixel size
is the pixel-by-pixel loop. -/
theorem convert_packed_general_eq (src dst : xcb_image_t)
    (hs : image_format_valid src = true) (hd : image_format_valid dst = true)
    (hsfam : family src = Z_PIXMAP)
    (hw : src.width = dst.width) (hh : src.height = dst.height) (hdp : src.depth = dst.depth)
    (hne : src.bpp ≠ dst.bpp) :
    xcb_image_convert src dst =
      (convert_pixels_y src src.height 0 dst).map (fun dst1 => (true, dst1)) := by
  unfold family at hsfam
  unfold xcb_image_convert
  rw [hsfam]
  simp only [hs, hd, hw, hh, hdp, hne, convert_after_switch, ne_eq, not_true_eq_false, or_self,
    if_false, and_false, false_and, Bool.false_eq_true]
  cases convert_pixels_y src dst.height 0 dst <;> rfl

/-- C10, as amended: for format-valid packed images `src` and `dst` of equal
width (below `2^16`), height and depth whose bpp differ, `dst` annotated with a
scanline pad in {8,16,32} and with `height * stride < 2^32`,
`xcb_image_convert(src,dst)` returns `dst` and afterwards, for every in-bounds
`(x, y)`, `xcb_image_get_pixel(dst,x,y)` is `xcb_image_get_pixel(src,x,y)`
modulo `2^(dst.bpp)`. -/
theorem convert_packed_general (src dst : xcb_image_t)
    (hs : image_format_valid src = true) (hd : image_format_valid dst = true)
    (hda : annotated dst)
    (hsfam : family src = Z_PIXMAP) (hdfam : family dst = Z_PIXMAP)
    (hpad : dst.scanline_pad = 8 ∨ dst.scanline_pad = 16 ∨ dst.scanline_pad = 32)
    (hw : src.width = dst.width) (hh : src.height = dst.height) (hdp : src.depth = dst.depth)
    (hne : src.bpp ≠ dst.bpp)
    (hw16 : dst.width < 65536)
    (hfit : dst.height * dst.stride < 4294967296) :
    ∃ dst1, xcb_image_convert src dst = some (true, dst1) ∧
      ∀ x y, x < src.width → y < src.height →
        ∃ p, xcb_image_get_pixel src x y = some p ∧
          xcb_image_get_pixel dst1 x y = some (p % 2 ^ dst.bpp) := by
  obtain ⟨hsf, hsb⟩ := packed_format_bpp src hs hsfam
  obtain ⟨hdf, hdb⟩ := packed_format_bpp dst hd hdfam
  have hD := hda.2.1
  rw [annotate_stride_packed dst hdfam] at hD
  have hst : dst.width * dst.bpp ≤ 8 * dst.stride := by
    have := (roundup_pad_bounds (dst.width * dst.bpp) dst.scanline_pad hpad (by
      rcases hdb with h | h | h | h | h <;> rw [h] <;> omega)).1
    rw [← hD] at this; exact this
  obtain ⟨d1, hloop, ha, _⟩ :=
    convert_pixels_y_spec src dst hsf hsb hdf hdb hw hh hw16 hst src.height 0 dst.data (by omega)
  refine ⟨with_data dst d1, ?_, ?_⟩
  · rw [convert_packed_general_eq src dst hs hd hsfam hw hh hdp hne]
    have e : with_data dst dst.data = dst := rfl
    rw [e] at hloop
    rw [hloop]
    rfl
  · intro x y hx hy
    apply ha x y (by omega) hy hx
    intro y2 h1 h2
    right; right
    have h3 : (y + 1) * dst.stride ≤ y2 * dst.stride := Nat.mul_le_mul_right _ (by omega)
    have h4 : (y2 + 1) * dst.stride ≤ dst.height * dst.stride :=
      Nat.mul_le_mul_right _ (by omega)
    rw [Nat.add_mul] at h3 h4
    unfold u32
    omega

/-- The conversion of C10 on an image of two by two pixels, from 24 to 32 bits
per pixel. -/
theorem convert_packed_general_witness :
    ∃ dst1, xcb_image_convert ex_packed24_src ex_packed32_dst = some (true, dst1) ∧
      ∀ x y, x < ex_packed24_src.width → y < ex_packed24_src.height →
        ∃ p, xcb_image_get_pixel ex_packed24_src x y = some p ∧
          xcb_image_get_pixel dst1 x y = some (p % 2 ^ ex_packed32_dst.bpp) :=
  convert_packed_general ex_packed24_src ex_packed32_dst (by decide) (by decide)
    ⟨rfl, rfl, rfl⟩ (by decide) (by decide) (by decide) rfl rfl rfl (by decide) (by decide)
    (by decide)

/-- The read of a packed 32-bit pixel, least significant byte first. -/
theorem get_pixel_z32_lsb (image : xcb_image_t) (x y : Nat)
    (hf : image.format = Z_PIXMAP) (hb : image.bpp = 32) (ho : image.byte_order = LSB_FIRST)
    (hx : x < image.width) (hy : y < image.height) :
    xcb_image_get_pixel image x y =
      some (load image.data (u32 (y * image.stride) + u32 (x <<< 2)) |||
        (load image.data (u32 (y * image.stride) + u32 (u32 (x <<< 2) + 1)) <<< 8) |||
        (load image.data (u32 (y * image.stride) + u32 (u32 (x <<< 2) + 2)) <<< 16) |||
        (load image.data (u32 (y * image.stride) + u32 (u32 (x <<< 2) + 3)) <<< 24)) := by
  simp [xcb_image_get_pixel, hf, hb, ho, hx, hy]

/-- C10 as stated fails: on packed images of 65535 by 16386 pixels, 24 bits per
pixel in the source and 32 in the destination, the row offset
`16385 * 262140` of the destination exceeds `2^32` and wraps to the offset of
the pixel `(49151, 0)`; after the conversion that pixel reads 1 in the
destination and 0 in the source. -/
theorem convert_packed_general_wraps :
    image_format_valid ex_huge24_src = true ∧ image_format_valid ex_huge32_dst = true ∧
    family ex_huge24_src = Z_PIXMAP ∧ family ex_huge32_dst = Z_PIXMAP ∧
    ex_huge24_src.width = ex_huge32_dst.width ∧ ex_huge24_src.height = ex_huge32_dst.height ∧
    ex_huge24_src.depth = ex_huge32_dst.depth ∧ ex_huge24_src.bpp ≠ ex_huge32_dst.bpp ∧
    ex_huge24_src.scanline_pad = 8 ∧ ex_huge32_dst.scanline_pad = 32 ∧
    49151 < ex_huge24_src.width ∧ 0 < ex_huge24_src.height ∧
    ∃ dst1, xcb_image_convert ex_huge24_src ex_huge32_dst = some (true, dst1) ∧
      xcb_image_get_pixel ex_huge24_src 49151 0 = some 0 ∧
      xcb_image_get_pixel dst1 49151 0 = some 1 := by
  have hH : ex_huge24_src.height = 16386 := by decide
  obtain ⟨d1, hloop, ha, _⟩ :=
    convert_pixels_y_spec ex_huge24_src ex_huge32_dst rfl (by decide) rfl (by decide) rfl rfl
      (by decide) (by decide) ex_huge24_src.height 0 ex_huge32_dst.data (by omega)
  obtain ⟨p, hp, hg⟩ := ha 0 16385 (by omega) (by omega) (by decide) (by
    intro y2 h1 h2; omega)
  have hp1 : xcb_image_get_pixel ex_huge24_src 0 16385 = some 1 := by decide
  have hp2 : p = 1 := by rw [hp1] at hp; exact (Option.some.inj hp).symm
  subst hp2
  refine ⟨by decide, by decide, by decide, by decide, rfl, rfl, rfl, by decide, rfl, rfl,
    by decide, by decide, with_data ex_huge32_dst d1, ?_, by decide, ?_⟩
  · rw [convert_packed_general_eq ex_huge24_src ex_huge32_dst (by decide) (by decide)
      (by decide) rfl rfl rfl (by decide)]
    have e : with_data ex_huge32_dst ex_huge32_dst.data = ex_huge32_dst := rfl
    rw [e] at hloop
    rw [hloop]
    rfl
  · have hS : (with_data ex_huge32_dst d1).stride = 262140 := rfl
    have w1 : 49151 < ex_huge32_dst.width := by decide
    have w2 : 0 < ex_huge32_dst.width := by decide
    have h1 : 0 < ex_huge32_dst.height := by decide
    have h2 : 16385 < ex_huge32_dst.height := by decide
    have g1 := get_pixel_z32_lsb (with_data ex_huge32_dst d1) 49151 0 rfl rfl rfl w1 h1
    have g2 := get_pixel_z32_lsb (with_data ex_huge32_dst d1) 0 16385 rfl rfl rfl w2 h2
    rw [hS] at g1 g2
    have a0 : u32 (0 * 262140) + u32 (49151 <<< 2) = u32 (16385 * 262140) + u32 (0 <<< 2) := by
      decide
    have a1 : u32 (0 * 262140) + u32 (u32 (49151 <<< 2) + 1) =
        u32 (16385 * 262140) + u32 (u32 (0 <<< 2) + 1) := by decide
    have a2 : u32 (0 * 262140) + u32 (u32 (49151 <<< 2) + 2) =
        u32 (16385 * 262140) + u32 (u32 (0 <<< 2) + 2) := by decide
    have a3 : u32 (0 * 262140) + u32 (u32 (49151 <<< 2) + 3) =
        u32 (16385 * 262140) + u32 (u32 (0 <<< 2) + 3) := by decide
    rw [a0, a1, a2, a3, ← g2] at g1
    rw [g1, hg]
    rfl

/-! ## The bound check of `xcb_image_put_pixel` -/

/-- C11, evaluated on the code: on a packed image of one pixel of eight bits
with a row of four bytes, `xcb_image_put_pixel(d, 1, 0, 0xAB)`, a write at
`x = width`, passes the check `x > image->width` and stores `0xAB` at offset 1,
while `xcb_image_get_pixel` rejects the same coordinate. -/
theorem put_pixel_at_width_writes :
    ex_packed8_pad32.width = 1 ∧ ex_packed8_pad32.data 1 = 0 ∧
    xcb_image_get_pixel ex_packed8_pad32 1 0 = none ∧
    ∃ image1, xcb_image_put_pixel ex_packed8_pad32 1 0 171 = some image1 ∧
      image1.data 1 = 171 :=
  ⟨by decide, by decide, by decide, _, rfl, by decide⟩

/-! ## The stride and the size of `xcb_image_annotate` -/

/-- The stride that `xcb_image_annotate` gives a planar image. -/
theorem annotate_stride_planar (image : xcb_image_t)
    (he : effective_format image.format image.bpp = XY_PIXMAP) :
    (xcb_image_annotate image).stride =
      u32 (xcb_roundup image.width image.scanline_pad) >>> 3 := by
  unfold xcb_image_annotate
  rw [he]

/-- C12, as amended: for every image that `format_valid` accepts, of a width in
0..65535 and, when it is packed, with a scanline pad in {8,16,32}, the stride
that `xcb_image_annotate` computes satisfies `stride*8 >= width` for a planar
image and `stride*8 >= width*bpp` for a packed image, and `stride*8` is a
multiple of the scanline pad. -/
theorem annotate_stride_covers (image : xcb_image_t)
    (hv : image_format_valid image = true) (hw : image.width < 65536)
    (hpad : family image = Z_PIXMAP →
      image.scanline_pad = 8 ∨ image.scanline_pad = 16 ∨ image.scanline_pad = 32) :
    (family image = XY_PIXMAP → image.width * 1 ≤ (xcb_image_annotate image).stride * 8) ∧
    (family image = Z_PIXMAP →
      image.width * image.bpp ≤ (xcb_image_annotate image).stride * 8) ∧
    ((xcb_image_annotate image).stride * 8) % image.scanline_pad = 0 := by
  have hfv := format_valid_true image.depth image.bpp image.unit image.format
    image.scanline_pad hv
  unfold family at hpad ⊢
  rcases effective_format_cases image.format image.bpp with ⟨he, hz, hb1⟩ | ⟨he, hnz⟩
  · -- packed
    have hp := hpad he
    have hb : image.bpp ≤ 32 := by
      rcases hfv with ⟨_, ⟨h1, _⟩ | ⟨_, h2, _⟩⟩
      · rcases h1 with h | h
        · exact absurd hz h
        · exact absurd h hb1
      · omega
    have hn : image.width * image.bpp < 2147483648 := by
      calc image.width * image.bpp ≤ 65535 * 32 := Nat.mul_le_mul (by omega) hb
        _ < 2147483648 := by norm_num
    have b := roundup_pad_bounds (image.width * image.bpp) image.scanline_pad hp hn
    rw [annotate_stride_packed image he, he]
    refine ⟨fun h => absurd h (by decide), fun _ => by omega, ?_⟩
    rw [Nat.mul_comm]; exact b.2.2
  · -- planar
    have hp : image.scanline_pad = 8 ∨ image.scanline_pad = 16 ∨ image.scanline_pad = 32 := by
      rcases hfv with ⟨_, ⟨_, _, h, _⟩ | ⟨h2, _⟩⟩
      · exact h
      · exact absurd h2 hnz
    have b := roundup_pad_bounds image.width image.scanline_pad hp (by omega)
    have e : u32 image.width = image.width := by unfold u32; omega
    rw [e] at b
    rw [annotate_stride_planar image he, he]
    refine ⟨fun _ => by omega, fun h => absurd h (by decide), ?_⟩
    rw [Nat.mul_comm]; exact b.2.2

/-- The bounds of C12 on the planar example of the specification: width 16,
unit 32 and scanline pad 32 give stride 4 and size 4. -/
theorem annotate_stride_covers_witness :
    (mk_image 16 1 XY_PIXMAP 32 1 1 32 MSB_FIRST MSB_FIRST (fun _ => 0)).stride = 4 ∧
    (mk_image 16 1 XY_PIXMAP 32 1 1 32 MSB_FIRST MSB_FIRST (fun _ => 0)).size = 4 ∧
    (family ex_bitmap32_dst = XY_PIXMAP →
      ex_bitmap32_dst.width * 1 ≤ (xcb_image_annotate ex_bitmap32_dst).stride * 8) ∧
    (family ex_bitmap32_dst = Z_PIXMAP →
      ex_bitmap32_dst.width * ex_bitmap32_dst.bpp ≤
        (xcb_image_annotate ex_bitmap32_dst).stride * 8) ∧
    ((xcb_image_annotate ex_bitmap32_dst).stride * 8) % ex_bitmap32_dst.scanline_pad = 0 :=
  ⟨by decide, by decide,
    annotate_stride_covers ex_bitmap32_dst (by decide) (by decide)
      (fun h => absurd h (by decide))⟩

/-- C12 as stated fails: `format_valid` accepts a packed image of four bits per
pixel with scanline pad 4, and for width 1 `xcb_image_annotate` gives it the
stride 0, so that `stride*8 < width*bpp`. -/
theorem annotate_stride_short :
    format_valid 4 4 8 Z_PIXMAP 4 = true ∧ ex_packed4_pad4.width = 1 ∧
    ex_packed4_pad4.bpp = 4 ∧ family ex_packed4_pad4 = Z_PIXMAP ∧
    (xcb_image_annotate ex_packed4_pad4).stride * 8 <
      ex_packed4_pad4.width * ex_packed4_pad4.bpp :=
  ⟨by decide, by decide, by decide, by decide, by decide⟩

/-- Rounding up adds less than the pad. -/
theorem xcb_roundup_le (n pad : Nat) : xcb_roundup n pad ≤ n + pad - 1 := by
  unfold xcb_roundup
  exact Nat.div_mul_le_self _ _

/-- C17, as amended: for every image that `format_valid` accepts, with width
and height in 0..65535 and a scanline pad in 0..255, after `xcb_image_annotate`
the size is the product `height * stride * depth` (planar) or `height * stride`
(packed) reduced modulo `2^32`; it is the exact product whenever that product
is below `2^32`, in particular whenever width and height are at most 8192. -/
theorem annotate_size_mod (image : xcb_image_t)
    (hv : image_format_valid image = true)
    (hw : image.width < 65536) (_hh : image.height < 65536)
    (hp : image.scanline_pad < 256) :
    (xcb_image_annotate image).size = exact_size (xcb_image_annotate image) % 4294967296 ∧
    (exact_size (xcb_image_annotate image) < 4294967296 →
      (xcb_image_annotate image).size = exact_size (xcb_image_annotate image)) ∧
    (image.width ≤ 8192 → image.height ≤ 8192 →
      (xcb_image_annotate image).size = exact_size (xcb_image_annotate image)) := by
  have hfv := format_valid_true image.depth image.bpp image.unit image.format
    image.scanline_pad hv
  have hf : (xcb_image_annotate image).format = image.format := by
    unfold xcb_image_annotate; split <;> rfl
  have hb : (xcb_image_annotate image).bpp = image.bpp := by
    unfold xcb_image_annotate; split <;> rfl
  have hd : (xcb_image_annotate image).depth = image.depth := by
    unfold xcb_image_annotate; split <;> rfl
  have hhe : (xcb_image_annotate image).height = image.height := by
    unfold xcb_image_annotate; split <;> rfl
  have key : (xcb_image_annotate image).size =
      exact_size (xcb_image_annotate image) % 4294967296 := by
    unfold exact_size family
    rw [hf, hb]
    rcases effective_format_cases image.format image.bpp with ⟨he, _, _⟩ | ⟨he, _⟩
    · rw [he]; simp only [xcb_image_annotate, he, u32]
    · rw [he]; simp only [xcb_image_annotate, he, u32]
  refine ⟨key, fun h => by rw [key]; exact Nat.mod_eq_of_lt h, ?_⟩
  intro hw1 hh1
  rw [key]
  apply Nat.mod_eq_of_lt
  unfold exact_size family
  rw [hf, hb, hd, hhe]
  rcases effective_format_cases image.format image.bpp with ⟨he, hz, hb1⟩ | ⟨he, hnz⟩
  · rw [he, annotate_stride_packed image he]
    have hb32 : image.bpp ≤ 32 := by
      rcases hfv with ⟨_, ⟨h1, _⟩ | ⟨_, h2, _⟩⟩
      · rcases h1 with h | h
        · exact absurd hz h
        · exact absurd h hb1
      · omega
    have hn : image.width * image.bpp ≤ 8192 * 32 := Nat.mul_le_mul hw1 hb32
    have hr := xcb_roundup_le (u32 (image.width * image.bpp)) image.scanline_pad
    have hs : u32 (xcb_roundup (u32 (image.width * image.bpp)) image.scanline_pad) >>> 3
        ≤ 32799 := by
      rw [Nat.shiftRight_eq_div_pow]
      unfold u32 at hr ⊢
      omega
    calc image.height *
          (u32 (xcb_roundup (u32 (image.width * image.bpp)) image.scanline_pad) >>> 3)
        ≤ 8192 * 32799 := Nat.mul_le_mul hh1 hs
      _ < 4294967296 := by norm_num
  · rw [he, annotate_stride_planar image he]
    have hd32 : image.depth ≤ 32 := by
      rcases hfv with ⟨⟨h1, h2⟩, ⟨_, h3, _⟩ | ⟨h4, _⟩⟩
      · omega
      · exact absurd h4 hnz
    have hr := xcb_roundup_le image.width image.scanline_pad
    have hs : u32 (xcb_roundup image.width image.scanline_pad) >>> 3 ≤ 1055 := by
      rw [Nat.shiftRight_eq_div_pow]
      unfold u32
      omega
    calc image.height * (u32 (xcb_roundup image.width image.scanline_pad) >>> 3) * image.depth
        ≤ 8192 * 1055 * 32 := Nat.mul_le_mul (Nat.mul_le_mul hh1 hs) hd32
      _ < 4294967296 := by norm_num

/-- The size of C17 on the packed example of the specification: eight pixels
of eight bits in one row have size 8, the exact product. -/
theorem annotate_size_mod_witness :
    ex_packed8.size = 8 ∧
    (xcb_image_annotate ex_packed8).size = exact_size (xcb_image_annotate ex_packed8) % 4294967296 ∧
    (exact_size (xcb_image_annotate ex_packed8) < 4294967296 →
      (xcb_image_annotate ex_packed8).size = exact_size (xcb_image_annotate ex_packed8)) ∧
    (ex_packed8.width ≤ 8192 → ex_packed8.height ≤ 8192 →
      (xcb_image_annotate ex_packed8).size = exact_size (xcb_image_annotate ex_packed8)) :=
  ⟨by decide, annotate_size_mod ex_packed8 (by decide) (by decide) (by decide) (by decide)⟩

/-- C17 as stated fails: `format_valid` accepts a packed image of 32 bits per
pixel, and for 65535 by 65535 pixels `xcb_image_annotate` gives the stride
262140 and the size 4294443012, while `height * stride` is 17179344900. -/
theorem annotate_size_wraps :
    image_format_valid ex_huge32_square = true ∧
    ex_huge32_square.width = 65535 ∧ ex_huge32_square.height = 65535 ∧
    family ex_huge32_square = Z_PIXMAP ∧
    (xcb_image_annotate ex_huge32_square).stride = 262140 ∧
    (xcb_image_annotate ex_huge32_square).size = 4294443012 ∧
    (xcb_image_annotate ex_huge32_square).height * (xcb_image_annotate ex_huge32_square).stride
      = 17179344900 :=
  ⟨by decide, by decide, by decide, by decide, by decide, by decide, by decide⟩

/-! ## Creation of a descriptor -/

/-- The fields that `xcb_image_annotate` keeps. -/
theorem annotate_fields (image : xcb_image_t) :
    (xcb_image_annotate image).width = image.width ∧
    (xcb_image_annotate image).height = image.height ∧
    (xcb_image_annotate image).format = image.format ∧
    (xcb_image_annotate image).scanline_pad = image.scanline_pad ∧
    (xcb_image_annotate image).depth = image.depth ∧
    (xcb_image_annotate image).bpp = image.bpp ∧
    (xcb_image_annotate image).unit = image.unit := by
  unfold xcb_image_annotate
  split <;> exact ⟨rfl, rfl, rfl, rfl, rfl, rfl, rfl⟩

/-- The constructor of the examples carries its arguments in the fields. -/
theorem mk_image_fields (width height : Nat) (format : xcb_image_format_t)
    (xpad depth bpp unit : Nat) (byte_order bit_order : xcb_image_order_t) (d : Nat → Nat) :
    (mk_image width height format xpad depth bpp unit byte_order bit_order d).format = format ∧
    (mk_image width height format xpad depth bpp unit byte_order bit_order d).scanline_pad
      = xpad ∧
    (mk_image width height format xpad depth bpp unit byte_order bit_order d).depth = depth ∧
    (mk_image width height format xpad depth bpp unit byte_order bit_order d).bpp = bpp ∧
    (mk_image width height format xpad depth bpp unit byte_order bit_order d).unit = unit := by
  unfold mk_image
  obtain ⟨_, _, f3, f4, f5, f6, f7⟩ := annotate_fields
    { width := width, height := height, format := format, scanline_pad := xpad,
      depth := depth, bpp := bpp, unit := unit, plane_mask := 0,
      byte_order := byte_order, bit_order := bit_order, stride := 0, size := 0,
      data := d }
  exact ⟨f3, f4, f5, f6, f7⟩

/-- A descriptor that `xcb_image_create` returns has passed `format_valid`
with the defaulted unit and carries the arguments in its fields. -/
theorem create_some_fields (malloc_image : Bool) (malloc_data : Nat → Nat)
    (heap : Nat → Nat → Nat) (width height : Nat) (format : xcb_image_format_t)
    (xpad depth bpp unit : Nat) (byte_order bit_order : xcb_image_order_t)
    (base bytes data : Nat) (r : created_image)
    (h : xcb_image_create malloc_image malloc_data heap width height format xpad depth bpp unit
      byte_order bit_order base bytes data = some r) :
    format_valid depth bpp (default_unit format bpp unit) format xpad = true ∧
    r.image.format = format ∧ r.image.scanline_pad = xpad ∧ r.image.depth = depth ∧
    r.image.bpp = bpp ∧ r.image.unit = default_unit format bpp unit := by
  unfold xcb_image_create at h
  by_cases hv : format_valid depth bpp (default_unit format bpp unit) format xpad = false
  · simp [hv] at h
  · have hv1 : format_valid depth bpp (default_unit format bpp unit) format xpad = true := by
      simpa using hv
    refine ⟨hv1, ?_⟩
    have hI := mk_image_fields width height format xpad depth bpp
      (default_unit format bpp unit) byte_order bit_order (heap data)
    simp only [hv, if_false] at h
    generalize mk_image width height format xpad depth bpp (default_unit format bpp unit)
      byte_order bit_order (heap data) = I at h hI
    split_ifs at h <;> (cases h; exact hI)


/-- What `xcb_image_create` does with a data pointer and a declared size
`bytes` strictly smaller than the computed size: it returns the null pointer
whenever `bytes` is not 0 or a storage base is supplied as well; with
`bytes = 0` and no storage base the guard `!base && data && bytes == 0` sets the
declared size to the computed size, and for an accepted format the call returns
the descriptor with the given data pointer (when the structure can be
allocated). -/
theorem create_small_buffer (malloc_image : Bool) (malloc_data : Nat → Nat)
    (heap : Nat → Nat → Nat) (width height : Nat) (format : xcb_image_format_t)
    (xpad depth bpp unit : Nat) (byte_order bit_order : xcb_image_order_t)
    (base bytes data : Nat) (hdata : data ≠ 0) :
    (bytes < (mk_image width height format xpad depth bpp (default_unit format bpp unit)
        byte_order bit_order (heap data)).size →
      (base ≠ 0 ∨ bytes ≠ 0) →
      xcb_image_create malloc_image malloc_data heap width height format xpad depth bpp unit
        byte_order bit_order base bytes data = none) ∧
    (base = 0 → bytes = 0 →
      format_valid depth bpp (default_unit format bpp unit) format xpad = true →
      malloc_image = true →
      xcb_image_create malloc_image malloc_data heap width height format xpad depth bpp unit
        byte_order bit_order base bytes data =
        some { image := mk_image width height format xpad depth bpp
                 (default_unit format bpp unit) byte_order bit_order (heap data),
               base := 0, data := data }) := by
  constructor
  · intro hsmall hnd
    unfold xcb_image_create
    simp only [hdata, ne_eq, not_false_eq_true, not_true_eq_false, and_false, false_and,
      if_false, if_true, true_and, and_true]
    split_ifs <;> first | rfl | omega
  · intro hb hz hv hm
    unfold xcb_image_create
    subst hb; subst hz
    simp [hv, hm, hdata]

/-- A buffer of two bytes declared for an image of eight bytes, supplied as
data pointer without a storage base, is rejected. -/
theorem create_small_buffer_witness :
    xcb_image_create true (fun _ => 8192) (fun _ _ => 0) 8 1 Z_PIXMAP 8 8 8 8 LSB_FIRST MSB_FIRST
      0 2 4096 = none :=
  (create_small_buffer true (fun _ => 8192) (fun _ _ => 0) 8 1 Z_PIXMAP 8 8 8 8 LSB_FIRST
    MSB_FIRST 0 2 4096 (by decide)).1 (by decide) (by decide)

/-- C14, evaluated on the code: for an accepted packed format with computed
size 1, `xcb_image_create` called with a storage base, no data pointer and the
declared size 0 returns the null pointer: the declared size stays 0, which is
below the computed size. -/
theorem create_base_zero_bytes_rejected :
    format_valid 8 8 8 Z_PIXMAP 8 = true ∧
    (mk_image 1 1 Z_PIXMAP 8 8 8 8 MSB_FIRST MSB_FIRST (fun _ => 0)).size = 1 ∧
    xcb_image_create true (fun _ => 8192) (fun _ _ => 0) 1 1 Z_PIXMAP 8 8 8 8 MSB_FIRST
      MSB_FIRST 4096 0 0 = none :=
  ⟨by decide, by decide, rfl⟩

/-- C16: if `format_valid` rejects the depth, bpp, defaulted unit, format and
scanline pad, `xcb_image_create` returns the null pointer, whatever the buffer
arguments; hence every descriptor that it returns satisfies `format_valid` on
its own fields, in particular `depth <= bpp <= unit`. -/
theorem create_validates (malloc_image : Bool) (malloc_data : Nat → Nat)
    (heap : Nat → Nat → Nat) (width height : Nat) (format : xcb_image_format_t)
    (xpad depth bpp unit : Nat) (byte_order bit_order : xcb_image_order_t)
    (base bytes data : Nat) :
    (format_valid depth bpp (default_unit format bpp unit) format xpad = false →
      xcb_image_create malloc_image malloc_data heap width height format xpad depth bpp unit
        byte_order bit_order base bytes data = none) ∧
    (∀ r, xcb_image_create malloc_image malloc_data heap width height format xpad depth bpp unit
        byte_order bit_order base bytes data = some r →
      image_format_valid r.image = true ∧ r.image.depth ≤ r.image.bpp ∧
        r.image.bpp ≤ r.image.unit) := by
  constructor
  · intro hv
    unfold xcb_image_create
    simp [hv]
  · intro r h
    obtain ⟨hv, hf, hp, hd, hb, hu⟩ := create_some_fields malloc_image malloc_data heap width
      height format xpad depth bpp unit byte_order bit_order base bytes data r h
    have hvalid : image_format_valid r.image = true := by
      unfold image_format_valid
      rw [hf, hp, hd, hb, hu]; exact hv
    refine ⟨hvalid, ?_⟩
    have := format_valid_true r.image.depth r.image.bpp r.image.unit r.image.format
      r.image.scanline_pad hvalid
    exact this.1

/-- The validation of C16 on two calls: a depth above the bpp is rejected, and
the descriptor returned for an accepted packed format is format-valid. -/
theorem create_validates_witness :
    xcb_image_create true (fun _ => 8192) (fun _ _ => 0) 1 1 Z_PIXMAP 8 9 8 8 MSB_FIRST
      MSB_FIRST 0 0 0 = none ∧
    ∃ r, xcb_image_create true (fun _ => 8192) (fun _ _ => 0) 1 1 Z_PIXMAP 8 8 8 0 MSB_FIRST
        MSB_FIRST 0 0 0 = some r ∧
      image_format_valid r.image = true ∧ r.image.depth ≤ r.image.bpp ∧
        r.image.bpp ≤ r.image.unit :=
  ⟨(create_validates true (fun _ => 8192) (fun _ _ => 0) 1 1 Z_PIXMAP 8 9 8 8 MSB_FIRST
      MSB_FIRST 0 0 0).1 (by decide),
    _, rfl, (create_validates true (fun _ => 8192) (fun _ _ => 0) 1 1 Z_PIXMAP 8 8 8 0 MSB_FIRST
      MSB_FIRST 0 0 0).2 _ rfl⟩

/-! ## Conversion: further evaluations of the code -/

/-- C18, evaluated on the code: a set bitmap pixel is converted into a packed
image of depth one in eight bits.  `xcb_image_convert` takes the bitmap path
and stores the source byte `0x80`; the pixel loop on the same destination
stores the pixel value 1. -/
theorem bitmap_to_packed_not_pixel_loop :
    image_format_valid ex_bitmap1_src = true ∧ image_format_valid ex_packed8_depth1 = true ∧
    family ex_bitmap1_src = XY_PIXMAP ∧ family ex_packed8_depth1 = Z_PIXMAP ∧
    ex_bitmap1_src.depth = 1 ∧ ex_packed8_depth1.depth = 1 ∧
    ∃ dst1 dst2, xcb_image_convert ex_bitmap1_src ex_packed8_depth1 = some (true, dst1) ∧
      convert_pixels_y ex_bitmap1_src ex_bitmap1_src.height 0 ex_packed8_depth1 = some dst2 ∧
      dst1.data 0 = 128 ∧ dst2.data 0 = 1 :=
  ⟨by decide, by decide, by decide, by decide, by decide, by decide, _, _, rfl, rfl,
    by decide, by decide⟩

/-- C19, evaluated on the code: a packed image of one by two pixels with
scanline pad 32 (stride 4, size 8) is converted into the same layout with
scanline pad 8 (stride 1, size 2).  The eight source bytes are copied: the
pixel `(0, 1)` reads 7 in the source and 0 in the destination, and the byte at
offset 4 of the destination, beyond its size, changes from 0 to 7. -/
theorem pad_convert_copies_bytes :
    image_format_valid ex_column_pad32 = true ∧ image_format_valid ex_column_pad8 = true ∧
    ex_column_pad8.size = 2 ∧ ex_column_pad8.data 4 = 0 ∧
    xcb_image_get_pixel ex_column_pad32 0 1 = some 7 ∧
    ∃ dst1, xcb_image_convert ex_column_pad32 ex_column_pad8 = some (true, dst1) ∧
      xcb_image_get_pixel dst1 0 1 = some 0 ∧ dst1.data 4 = 7 :=
  ⟨by decide, by decide, by decide, by decide, by decide, _, rfl, by decide, by decide⟩

/-- C20, evaluated on the code: `swap_image` with source stride 2, destination
stride 1, the identity table, units of one byte and one row stores the second
source byte at offset 1 of the destination row, since the test `d > dst_stride`
lets `d = dst_stride` pass; `xcb_image_convert` makes this call for two bitmaps
of eight pixels with scanline pads 16 and 8. -/
theorem swap_image_writes_at_stride :
    swap_image (fun _ => 255) 2 (fun _ => 0) 1 forward_order 1 1 false false 1 = 255 ∧
    ex_bitmap8_pad8.stride = 1 ∧ ex_bitmap8_pad8.size = 1 ∧ ex_bitmap8_pad8.data 1 = 0 ∧
    ∃ dst1, xcb_image_convert ex_bitmap8_pad16 ex_bitmap8_pad8 = some (true, dst1) ∧
      dst1.data 1 = 255 :=
  ⟨by decide, by decide, by decide, by decide, _, rfl, by decide⟩

/-! ## Byte addressing of the planar accessors -/

/-- C21, evaluated on the code: on a format-valid bitmap with a storage unit of
four bytes and most significant byte first, the pixel `(0, 0)` is, by the
formula of the claim, in the byte at offset 3; for every content of the data,
`xcb_image_put_pixel` writes the byte at offset 0 and `xcb_image_get_pixel`
reads bit 7 of the byte at offset 0: the accessors take the number of bytes
within which they reorder from `bpp >> 4`, not from the unit. -/
theorem planar_byte_offset_ignores_unit :
    image_format_valid ex_bitmap32_dst = true ∧ annotated ex_bitmap32_dst ∧
    family ex_bitmap32_dst = XY_PIXMAP ∧
    ex_bitmap32_dst.unit / 8 = 4 ∧ ex_bitmap32_dst.byte_order = MSB_FIRST ∧
    0 < ex_bitmap32_dst.width ∧ 0 < ex_bitmap32_dst.height ∧
    0 * ex_bitmap32_dst.stride + (0 / 8 - 0 / 8 % 4) + (4 - 1 - 0 / 8 % 4) = 3 ∧
    (∀ d, xcb_image_put_pixel (with_data ex_bitmap32_dst d) 0 0 1 =
      some (with_data ex_bitmap32_dst (store d 0 ((load d 0 &&& not32 128) ||| 128)))) ∧
    (∀ d, xcb_image_get_pixel (with_data ex_bitmap32_dst d) 0 0 =
      some ((load d 0 >>> 7) &&& 1)) := by
  have hf : ∀ d, (with_data ex_bitmap32_dst d).format = XY_PIXMAP := fun _ => rfl
  have hb : ∀ d, (with_data ex_bitmap32_dst d).bpp = 1 := fun _ => rfl
  have hw : ∀ d, (with_data ex_bitmap32_dst d).width = 32 := fun _ => rfl
  have hh : ∀ d, (with_data ex_bitmap32_dst d).height = 1 := fun _ => rfl
  have hs : ∀ d, (with_data ex_bitmap32_dst d).stride = 4 := fun _ => rfl
  have hbo : ∀ d, (with_data ex_bitmap32_dst d).byte_order = MSB_FIRST := fun _ => rfl
  have hbi : ∀ d, (with_data ex_bitmap32_dst d).bit_order = MSB_FIRST := fun _ => rfl
  have hpm : ∀ d, (with_data ex_bitmap32_dst d).plane_mask = 1 := fun _ => rfl
  have hd : ∀ d, (with_data ex_bitmap32_dst d).data = d := fun _ => rfl
  refine ⟨by decide, ⟨rfl, rfl, rfl⟩, by decide, by decide, by decide, by decide, by decide,
    by decide, ?_, ?_⟩
  · intro d
    simp [xcb_image_put_pixel, hf, hb, hw, hh, hs, hbo, hbi, hpm, hd, put_pixel_planes,
      xcb_mask, u32]
    rfl
  · intro d
    simp [xcb_image_get_pixel, hf, hb, hw, hh, hs, hbo, hbi, hpm, hd, get_pixel_planes,
      xcb_mask, u32]

/-! ## Pixel access and the size of the buffer -/

/-- C22, evaluated on the code: on a format-valid, annotated planar image of
one pixel with depth 1, two bits per pixel and least significant bit first,
whose size is 1, `xcb_image_put_pixel` at `(0, 0)` writes the byte at offset 1
and `xcb_image_get_pixel` at `(0, 0)` reads the byte at offset 1, for every
content of the data: the plane mask reversed within `bpp` bits selects the
plane `bpp - 1`, beyond the `depth` planes that the size accounts for. -/
theorem planar_access_beyond_size :
    image_format_valid ex_planar_depth1 = true ∧ annotated ex_planar_depth1 ∧
    family ex_planar_depth1 = XY_PIXMAP ∧ ex_planar_depth1.depth = 1 ∧ ex_planar_depth1.bpp = 2 ∧
    ex_planar_depth1.size = 1 ∧ 0 < ex_planar_depth1.width ∧ 0 < ex_planar_depth1.height ∧
    (∀ d, xcb_image_put_pixel (with_data ex_planar_depth1 d) 0 0 1 =
      some (with_data ex_planar_depth1 (store d 1 ((load d 1 &&& not32 1) ||| 1)))) ∧
    (∀ d, xcb_image_get_pixel (with_data ex_planar_depth1 d) 0 0 =
      some (xcb_bit_reverse (load d 1 &&& 1) 2)) ∧
    xcb_image_get_pixel (with_data ex_planar_depth1 (fun i => if i = 1 then 1 else 0)) 0 0 = some 2 ∧
    xcb_image_get_pixel ex_planar_depth1 0 0 = some 0 := by
  have hf : ∀ d, (with_data ex_planar_depth1 d).format = XY_PIXMAP := fun _ => rfl
  have hb : ∀ d, (with_data ex_planar_depth1 d).bpp = 2 := fun _ => rfl
  have hw : ∀ d, (with_data ex_planar_depth1 d).width = 1 := fun _ => rfl
  have hh : ∀ d, (with_data ex_planar_depth1 d).height = 1 := fun _ => rfl
  have hs : ∀ d, (with_data ex_planar_depth1 d).stride = 1 := fun _ => rfl
  have hbo : ∀ d, (with_data ex_planar_depth1 d).byte_order = MSB_FIRST := fun _ => rfl
  have hbi : ∀ d, (with_data ex_planar_depth1 d).bit_order = LSB_FIRST := fun _ => rfl
  have hpm : ∀ d, (with_data ex_planar_depth1 d).plane_mask = 1 := fun _ => rfl
  have hd : ∀ d, (with_data ex_planar_depth1 d).data = d := fun _ => rfl
  have r1 : xcb_bit_reverse 1 2 = 2 := by decide
  refine ⟨by decide, ⟨rfl, rfl, rfl⟩, by decide, by decide, by decide, by decide, by decide,
    by decide, ?_, ?_, by decide, by decide⟩
  · intro d
    simp [xcb_image_put_pixel, hf, hb, hw, hh, hs, hbo, hbi, hpm, hd, put_pixel_planes,
      xcb_mask, u32, r1]
    rfl
  · intro d
    simp [xcb_image_get_pixel, hf, hb, hw, hh, hs, hbo, hbi, hpm, hd, get_pixel_planes,
      xcb_mask, u32, r1]

/-! ## The byte-order tables -/

/-- C23: each of the tables `forward_order`, `reverse_order` and
`reverse_word_order` satisfies `t[t[i]] = i` for `i` in 0..3; `bbo_reverse` has
three rows of three tables of four entries, each with `t[t[i]] = i`; and for a
source whose unit has `n` bytes, `n` in 1..4, the first `n` entries of the
table that `conversion_byte_order` returns are a permutation of `0..n-1` with
`t[i] < n` and `t[t[i]] = i` for every `i < n`. -/
theorem order_tables_self_inverse (src dst : xcb_image_t) (n : Nat)
    (hn : 1 ≤ n ∧ n ≤ 4) (hu : src.unit >>> 3 = n) :
    (∀ i, i < 4 → forward_order.getD (forward_order.getD i 0) 0 = i) ∧
    (∀ i, i < 4 → reverse_order.getD (reverse_order.getD i 0) 0 = i) ∧
    (∀ i, i < 4 → reverse_word_order.getD (reverse_word_order.getD i 0) 0 = i) ∧
    bbo_reverse.length = 3 ∧
    (∀ row, row ∈ bbo_reverse → row.length = 3 ∧
      ∀ t, t ∈ row → t.length = 4 ∧ ∀ i, i < 4 → t.getD (t.getD i 0) 0 = i) ∧
    List.Perm ((conversion_byte_order src dst).take n) (List.range n) ∧
    (∀ i, i < n → (conversion_byte_order src dst).getD i 0 < n ∧
      (conversion_byte_order src dst).getD ((conversion_byte_order src dst).getD i 0) 0 = i) := by
  refine ⟨by decide, by decide, by decide, by decide, by decide, ?_, ?_⟩
  all_goals
    obtain ⟨h1, h4⟩ := hn
    unfold conversion_byte_order
    rw [hu]
    simp only [h1, h4, ge_iff_le, and_self, if_true]
    have hcases : n = 1 ∨ n = 2 ∨ n = 3 ∨ n = 4 := by omega
    by_cases hbo : src.byte_order = dst.byte_order
    · simp only [hbo, if_true]
      rcases hcases with h | h | h | h <;> subst h <;> decide
    · simp only [hbo, if_false]
      rcases hcases with h | h | h | h <;> subst h <;> decide

/-- The table of C23 for a unit of three bytes and differing byte orders:
`conversion_byte_order` returns `reverse_order` from its second entry on. -/
theorem order_tables_self_inverse_witness :
    (∀ i, i < 4 → forward_order.getD (forward_order.getD i 0) 0 = i) ∧
    (∀ i, i < 4 → reverse_order.getD (reverse_order.getD i 0) 0 = i) ∧
    (∀ i, i < 4 → reverse_word_order.getD (reverse_word_order.getD i 0) 0 = i) ∧
    bbo_reverse.length = 3 ∧
    (∀ row, row ∈ bbo_reverse → row.length = 3 ∧
      ∀ t, t ∈ row → t.length = 4 ∧ ∀ i, i < 4 → t.getD (t.getD i 0) 0 = i) ∧
    List.Perm ((conversion_byte_order ex_packed24_src ex_packed32_dst).take 3) (List.range 3) ∧
    (∀ i, i < 3 → (conversion_byte_order ex_packed24_src ex_packed32_dst).getD i 0 < 3 ∧
      (conversion_byte_order ex_packed24_src ex_packed32_dst).getD
        ((conversion_byte_order ex_packed24_src ex_packed32_dst).getD i 0) 0 = i) :=
  order_tables_self_inverse ex_packed24_src ex_packed32_dst 3 (by decide) (by decide)

/-! ## A pixel write and the other pixels -/

end XcbImage
